import Mathlib

/-!
# Verification of the CRM Opportunity module (backend/routers)

Shallow embedding of the Opportunity/RFP/SOW routers
(`backend/routers/opportunities_mongo.py` and
`backend/routers/opportunity_collections.py`) together with the Pydantic
data model (`backend/models/opportunity_mongo_models.py`,
`backend/models/opportunity_collections.py`).

MongoDB collections are embedded as Lists of document records kept in
insertion order; `find_one` is `List.find?`, `find(..).to_list(n)` is
`filter` followed by `take n`, `insert_one` appends, `delete_one` removes
the first match, `delete_many` filters, and `update_one` with `$set`
rewrites the first match.  ObjectId generation is modelled by a counter in
the state.  `HTTPException` is an explicit error value.
-/

namespace Crm


/-- `update_one`: rewrite the first element matching `p` with `f`;
the Bool is Mongo's `matched_count != 0`. -/
def updateFirst (p : α → Bool) (f : α → α) : List α → Bool × List α
  | [] => (false, [])
  | x :: xs =>
    if p x then (true, f x :: xs)
    else
      let r := updateFirst p f xs
      (r.1, x :: r.2)

/-- `delete_one`: remove the first element matching `p`;
the Bool is Mongo's `deleted_count != 0`. -/
def deleteOne (p : α → Bool) : List α → Bool × List α
  | [] => (false, [])
  | x :: xs =>
    if p x then (true, xs)
    else
      let r := deleteOne p xs
      (r.1, x :: r.2)

/-! ## String ordering and opportunity-id generation

Mongo sorts string keys lexicographically by code point; `sort=[("opportunity_id", -1)]`
with `find_one` returns a document whose key is maximal in that order. -/

/-- Lexicographic strict order on character lists, by code point. -/
def charsLt : List Char → List Char → Bool
  | [], [] => false
  | [], _ :: _ => true
  | _ :: _, [] => false
  | a :: as, b :: bs =>
    if a.toNat < b.toNat then true
    else if b.toNat < a.toNat then false
    else charsLt as bs

/-- Lexicographic strict order on strings (Mongo's string sort order). -/
def strLtb (s t : String) : Bool := charsLt s.data t.data

/-- One step of the descending-sort maximum scan. -/
def maxStep (key : α → String) (a d : α) : α := if strLtb (key a) (key d) then d else a

/-- `find_one(sort=[(key, -1)])`: a document whose sort key is maximal
(ties broken towards the earlier document, matching Mongo's stable sort). -/
def findOneSortDesc (key : α → String) : List α → Option α
  | [] => none
  | x :: xs => some (xs.foldl (maxStep key) x)

/-- Python `f"{n:03d}"`: decimal digits of `n`, left-padded with zeros to
width 3 (wider numbers are kept whole). -/
def pad3 (n : Nat) : String :=
  let s := toString n
  if s.length < 3 then String.mk (List.replicate (3 - s.length) '0') ++ s else s

/-- `f"OPP-{n:03d}"`, the generated opportunity id. -/
def oppIdOf (n : Nat) : String := "OPP-" ++ pad3 n

/-- Python `str.split(sep)` for a single-character separator. -/
def splitChar (sep : Char) : List Char → List (List Char)
  | [] => [[]]
  | c :: cs =>
    let r := splitChar sep cs
    if c = sep then [] :: r
    else
      match r with
      | [] => [[c]]
      | h :: t => (c :: h) :: t

/-- Python `int(s)` restricted to the plain digit strings this module
produces (`int` additionally tolerates signs and whitespace, which never
occur in an `OPP-` suffix); `none` models the `ValueError`. -/
def digitsToNat? (cs : List Char) : Option Nat :=
  if cs ≠ [] ∧ cs.all (fun c => decide (48 ≤ c.toNat ∧ c.toNat ≤ 57)) then
    some (cs.foldl (fun a c => 10 * a + (c.toNat - 48)) 0)
  else none

/-- Python `int(s.split("-")[1])`: `none` models the `IndexError`/`ValueError`
raised on strings without a parsable suffix. -/
def parseOppNum (s : String) : Option Nat :=
  ((splitChar '-' s.data).get? 1).bind digitsToNat?

/-! ## Data model (`backend/models/opportunity_mongo_models.py`)

Documents are embedded as records of the fields the routers read or write;
timestamp fields, which no claim observes, are omitted.  Monetary amounts
(Python floats that are only ever copied, never computed with) are carried
as `Int`. -/

/-- `class PipelineStatus(str, Enum)` (models lines 45-52). -/
inductive PipelineStatus
  | prospecting
  | qualification
  | needsAnalysis
  | proposal
  | negotiation
  | closedWon
  | closedLost
deriving DecidableEq, Repr

/-- The string value of a `PipelineStatus` member. -/
def PipelineStatus.toStr : PipelineStatus → String
  | .prospecting => "Prospecting"
  | .qualification => "Qualification"
  | .needsAnalysis => "Needs Analysis"
  | .proposal => "Proposal"
  | .negotiation => "Negotiation"
  | .closedWon => "Closed Won"
  | .closedLost => "Closed Lost"

/-- A document of the `opportunities` collection. -/
structure OppDoc where
  mid : String
  opportunityId : String
  opportunityName : String
  clientName : String
  amount : Int
  currency : String
  value : Int
  pipelineStatus : String
  winProbability : Int
deriving DecidableEq, Repr

/-- A document of the `rfpDetails` collection. -/
structure RfpDetailsDoc where
  mid : String
  opportunityId : String
  rfpTitle : String
  rfpStatus : String
deriving DecidableEq, Repr

/-- A document of the `rfpDocuments` collection. -/
structure RfpDocumentDoc where
  mid : String
  opportunityId : String
  fileName : String
deriving DecidableEq, Repr

/-- A document of the `sowDetails` collection. -/
structure SowDetailsDoc where
  mid : String
  opportunityId : String
  sowTitle : String
  sowStatus : String
  contractValue : Int
  currency : String
  value : Int
deriving DecidableEq, Repr

/-- A document of the `sowDocuments` collection; `sowId` is
`str(sow_details["_id"])`. -/
structure SowDocumentDoc where
  mid : String
  sowId : String
  fileName : String
deriving DecidableEq, Repr

/-- A document of the `projects` collection (inserted by
`update_sow_details`, router lines 982-995). -/
structure ProjectDoc where
  mid : String
  project_name : String
  client_name : String
  linked_opportunity_id : String
  contract_value : Int
  currency : String
  target_kickoff_date : Option String
  status : String
  project_type : String
  priority : String
deriving DecidableEq, Repr

/-- The database state seen by `routers/opportunities_mongo.py`; `nextOid`
models MongoDB ObjectId generation as a counter. -/
structure MState where
  opportunities : List OppDoc
  rfpDetails : List RfpDetailsDoc
  rfpDocuments : List RfpDocumentDoc
  sowDetails : List SowDetailsDoc
  sowDocuments : List SowDocumentDoc
  projects : List ProjectDoc
  nextOid : Nat
deriving DecidableEq, Repr

/-- The string form of a freshly generated ObjectId. -/
def freshId (n : Nat) : String := "oid" ++ toString n

/-- `HTTPException(status_code, detail)`. -/
structure HttpError where
  code : Nat
  detail : String
deriving DecidableEq, Repr

/-- `OpportunityUpdate` (models lines 108-120), a validated request body;
`pipelineStatus` can only hold a `PipelineStatus` member. -/
structure OpportunityUpdate where
  opportunityName : Option String := none
  clientName : Option String := none
  amount : Option Int := none
  currency : Option String := none
  pipelineStatus : Option PipelineStatus := none
  winProbability : Option Int := none
deriving DecidableEq, Repr

/-- The `update_dict` built at router line 779 from an opportunity update:
`model_dump()` with the `None` fields dropped, enum members carried as
their string values. -/
structure OppUpdateDict where
  opportunityName : Option String := none
  clientName : Option String := none
  amount : Option Int := none
  currency : Option String := none
  pipelineStatus : Option String := none
  winProbability : Option Int := none
deriving DecidableEq, Repr

/-- `opportunity_data.model_dump()` followed by the `is not None` filter. -/
def OpportunityUpdate.dump (u : OpportunityUpdate) : OppUpdateDict where
  opportunityName := u.opportunityName
  clientName := u.clientName
  amount := u.amount
  currency := u.currency
  pipelineStatus := u.pipelineStatus.map PipelineStatus.toStr
  winProbability := u.winProbability

/-- `if not update_dict` at router line 781. -/
def OppUpdateDict.isEmpty (u : OppUpdateDict) : Bool :=
  u.opportunityName.isNone && u.clientName.isNone && u.amount.isNone &&
    u.currency.isNone && u.pipelineStatus.isNone && u.winProbability.isNone

/-- `$set` of an opportunity update dict on an opportunity document. -/
def OppUpdateDict.apply (u : OppUpdateDict) (d : OppDoc) : OppDoc where
  mid := d.mid
  opportunityId := d.opportunityId
  opportunityName := u.opportunityName.getD d.opportunityName
  clientName := u.clientName.getD d.clientName
  amount := u.amount.getD d.amount
  currency := u.currency.getD d.currency
  value := d.value
  pipelineStatus := u.pipelineStatus.getD d.pipelineStatus
  winProbability := u.winProbability.getD d.winProbability

/-- The `update_dict` built at router line 965 from a SOW details update. -/
structure SowUpdateDict where
  sowTitle : Option String := none
  sowStatus : Option String := none
  contractValue : Option Int := none
  currency : Option String := none
  targetKickoffDate : Option String := none
deriving DecidableEq, Repr

/-- `if not update_dict` at router line 967. -/
def SowUpdateDict.isEmpty (u : SowUpdateDict) : Bool :=
  u.sowTitle.isNone && u.sowStatus.isNone && u.contractValue.isNone &&
    u.currency.isNone && u.targetKickoffDate.isNone

/-- `$set` of a SOW update dict on a SOW details document. -/
def SowUpdateDict.apply (u : SowUpdateDict) (d : SowDetailsDoc) : SowDetailsDoc where
  mid := d.mid
  opportunityId := d.opportunityId
  sowTitle := u.sowTitle.getD d.sowTitle
  sowStatus := u.sowStatus.getD d.sowStatus
  contractValue := u.contractValue.getD d.contractValue
  currency := u.currency.getD d.currency
  value := d.value

/-- `RFPDetailsCreate` request body (the fields this embedding tracks). -/
structure RfpCreate where
  rfpTitle : String
  rfpStatus : String
deriving DecidableEq, Repr

/-- `SOWDetailsCreate` request body (the fields this embedding tracks);
`value`, absent from a manual create, is carried as 0. -/
structure SowCreate where
  sowTitle : String
  sowStatus : String
  contractValue : Int
  currency : String
deriving DecidableEq, Repr

/-! ## Handlers of `backend/routers/opportunities_mongo.py`

Each handler returns the HTTP outcome together with the database state
after the call (MongoDB applies no rollback, so writes made before an
`HTTPException` persist). -/

/-- The aggregated view returned by `GET /{opportunity_id}` (router
lines 106-147, `OpportunityView` of the models file). -/
structure OpportunityView where
  opportunity : OppDoc
  rfpDetails : Option RfpDetailsDoc
  rfpDocuments : List RfpDocumentDoc
  sowDetails : Option SowDetailsDoc
  sowDocuments : List SowDocumentDoc
deriving DecidableEq, Repr

/-- `get_opportunity` (router lines 106-147): the opportunity with its RFP
details, up to 50 RFP documents, SOW details and up to 50 SOW documents. -/
def getOpportunity (st : MState) (oid : String) : Except HttpError OpportunityView :=
  match st.opportunities.find? (fun d => d.opportunityId == oid) with
  | none => .error ⟨404, "Opportunity not found"⟩
  | some opp =>
    let rfp := st.rfpDetails.find? (fun d => d.opportunityId == oid)
    let rfpDocs := (st.rfpDocuments.filter (fun d => d.opportunityId == oid)).take 50
    let sow := st.sowDetails.find? (fun d => d.opportunityId == oid)
    let sowDocs :=
      match sow with
      | some s => (st.sowDocuments.filter (fun d => d.sowId == s.mid)).take 50
      | none => []
    .ok ⟨opp, rfp, rfpDocs, sow, sowDocs⟩

/-- The `sow_dict` auto-created at router lines 795-804 when an opportunity
update carries pipeline status "Converted to SOW". -/
def mkAutoSow (st : MState) (oid : String) (opp : OppDoc) : SowDetailsDoc where
  mid := freshId st.nextOid
  opportunityId := oid
  sowTitle := opp.opportunityName ++ " - SOW"
  sowStatus := "Draft"
  contractValue := opp.amount
  currency := opp.currency
  value := opp.value

/-- The trigger block at router lines 791-805: when the update carries
pipeline status "Converted to SOW" and no SOW details exist for the
opportunity, insert the auto-created draft SOW details. -/
def convertedSowTrigger (st : MState) (oid : String) (opp : OppDoc) (u : OppUpdateDict) :
    MState :=
  if u.pipelineStatus == some "Converted to SOW" then
    if (st.sowDetails.find? (fun s => s.opportunityId == oid)).isNone then
      { st with
          sowDetails := st.sowDetails ++ [mkAutoSow st oid opp],
          nextOid := st.nextOid + 1 }
    else st
  else st

/-- `update_opportunity` (router lines 775-816), taking the already-dumped
update dict: 400 on an empty update, 404 on a missing opportunity,
the converted-status trigger, then `$set` on the opportunity. -/
def updateOpportunity (st : MState) (oid : String) (u : OppUpdateDict) :
    Except HttpError OppDoc × MState :=
  if u.isEmpty then (.error ⟨400, "No fields to update"⟩, st)
  else
    match st.opportunities.find? (fun d => d.opportunityId == oid) with
    | none => (.error ⟨404, "Opportunity not found"⟩, st)
    | some opp =>
      let st1 := convertedSowTrigger st oid opp u
      let r := updateFirst (fun d => d.opportunityId == oid) u.apply st1.opportunities
      if r.1 then
        let st2 := { st1 with opportunities := r.2 }
        match st2.opportunities.find? (fun d => d.opportunityId == oid) with
        | some updated => (.ok updated, st2)
        | none => (.error ⟨404, "Opportunity not found"⟩, st2)
      else (.error ⟨404, "Opportunity not found"⟩, st1)

/-- `delete_opportunity` (router lines 818-836): delete the opportunity
(404 when nothing was deleted), then its RFP details and documents, then
its SOW details and their documents. -/
def deleteOpportunity (st : MState) (oid : String) : Except HttpError Unit × MState :=
  let r := deleteOne (fun d => d.opportunityId == oid) st.opportunities
  if !r.1 then (.error ⟨404, "Opportunity not found"⟩, st)
  else
    let st1 := { st with
      opportunities := r.2,
      rfpDetails := st.rfpDetails.filter (fun d => !(d.opportunityId == oid)),
      rfpDocuments := st.rfpDocuments.filter (fun d => !(d.opportunityId == oid)) }
    match st1.sowDetails.find? (fun s => s.opportunityId == oid) with
    | some s =>
      let sows := deleteOne (fun x => x.opportunityId == oid) st1.sowDetails
      (.ok (), { st1 with
        sowDocuments := st1.sowDocuments.filter (fun d => !(d.sowId == s.mid)),
        sowDetails := sows.2 })
    | none => (.ok (), st1)

/-- `create_rfp_details` (router lines 312-349): 404 on a missing
opportunity, 400 when RFP details already exist, insert otherwise. -/
def createRfpDetails (st : MState) (oid : String) (r : RfpCreate) :
    Except HttpError RfpDetailsDoc × MState :=
  if (st.opportunities.find? (fun d => d.opportunityId == oid)).isNone then
    (.error ⟨404, "Opportunity not found"⟩, st)
  else if (st.rfpDetails.find? (fun d => d.opportunityId == oid)).isSome then
    (.error ⟨400, "RFP details already exist for this opportunity"⟩, st)
  else
    let doc : RfpDetailsDoc :=
      { mid := freshId st.nextOid, opportunityId := oid,
        rfpTitle := r.rfpTitle, rfpStatus := r.rfpStatus }
    (.ok doc, { st with rfpDetails := st.rfpDetails ++ [doc], nextOid := st.nextOid + 1 })

/-- The update dict of `update_rfp_details`. -/
structure RfpUpdateDict where
  rfpTitle : Option String := none
  rfpStatus : Option String := none
deriving DecidableEq, Repr

/-- `$set` of an RFP update dict on an RFP details document. -/
def RfpUpdateDict.apply (u : RfpUpdateDict) (d : RfpDetailsDoc) : RfpDetailsDoc where
  mid := d.mid
  opportunityId := d.opportunityId
  rfpTitle := u.rfpTitle.getD d.rfpTitle
  rfpStatus := u.rfpStatus.getD d.rfpStatus

/-- `update_rfp_details` (router lines 351-392): 404 on a missing
opportunity or missing RFP details, then `$set` on the RFP details. -/
def updateRfpDetails (st : MState) (oid : String) (u : RfpUpdateDict) :
    Except HttpError RfpDetailsDoc × MState :=
  if (st.opportunities.find? (fun d => d.opportunityId == oid)).isNone then
    (.error ⟨404, "Opportunity not found"⟩, st)
  else if (st.rfpDetails.find? (fun d => d.opportunityId == oid)).isNone then
    (.error ⟨404, "RFP details not found for this opportunity"⟩, st)
  else
    let r := updateFirst (fun d => d.opportunityId == oid) u.apply st.rfpDetails
    if r.1 then
      let st2 := { st with rfpDetails := r.2 }
      match st2.rfpDetails.find? (fun d => d.opportunityId == oid) with
      | some updated => (.ok updated, st2)
      | none => (.error ⟨404, "Failed to update RFP details"⟩, st2)
    else (.error ⟨404, "Failed to update RFP details"⟩, st)

/-- `delete_rfp_document` (router lines 480-517): 404 on a missing
opportunity or when no document with this id belongs to it, then
`delete_one` by document id. -/
def deleteRfpDocument (st : MState) (oid docId : String) : Except HttpError Unit × MState :=
  if (st.opportunities.find? (fun d => d.opportunityId == oid)).isNone then
    (.error ⟨404, "Opportunity not found"⟩, st)
  else
    match st.rfpDocuments.find? (fun d => d.mid == docId && d.opportunityId == oid) with
    | none => (.error ⟨404, "Document not found"⟩, st)
    | some _ =>
      let r := deleteOne (fun d => d.mid == docId) st.rfpDocuments
      (.ok (), { st with rfpDocuments := r.2 })

/-- `create_sow_details` (router lines 550-587): 404 on a missing
opportunity, 400 when SOW details already exist, insert otherwise. -/
def createSowDetails (st : MState) (oid : String) (s : SowCreate) :
    Except HttpError SowDetailsDoc × MState :=
  if (st.opportunities.find? (fun d => d.opportunityId == oid)).isNone then
    (.error ⟨404, "Opportunity not found"⟩, st)
  else if (st.sowDetails.find? (fun d => d.opportunityId == oid)).isSome then
    (.error ⟨400, "SOW details already exist for this opportunity"⟩, st)
  else
    let doc : SowDetailsDoc :=
      { mid := freshId st.nextOid, opportunityId := oid, sowTitle := s.sowTitle,
        sowStatus := s.sowStatus, contractValue := s.contractValue,
        currency := s.currency, value := 0 }
    (.ok doc, { st with sowDetails := st.sowDetails ++ [doc], nextOid := st.nextOid + 1 })

/-- The `project_dict` auto-created at router lines 982-994 when a SOW
details update carries status "Signed". -/
def mkAutoProject (st : MState) (oid : String) (opp : OppDoc) (u : SowUpdateDict) :
    ProjectDoc where
  mid := freshId st.nextOid
  project_name := opp.opportunityName
  client_name := opp.clientName
  linked_opportunity_id := oid
  contract_value := u.contractValue.getD 0
  currency := opp.currency
  target_kickoff_date := u.targetKickoffDate
  status := "Planned"
  project_type := "New"
  priority := "Medium"

/-- The trigger block at router lines 973-995: when the update carries SOW
status "Signed", the opportunity exists and no project is linked to it,
insert the auto-created "Planned" project. -/
def signedProjectTrigger (st : MState) (oid : String) (u : SowUpdateDict) : MState :=
  if u.sowStatus == some "Signed" then
    match st.opportunities.find? (fun d => d.opportunityId == oid) with
    | some opp =>
      if st.projects.countP (fun p => p.linked_opportunity_id == oid) == 0 then
        { st with
            projects := st.projects ++ [mkAutoProject st oid opp u],
            nextOid := st.nextOid + 1 }
      else st
    | none => st
  else st

/-- `update_sow_details` (router lines 961-1006): 400 on an empty update,
the signed-status project trigger, then `$set` on the SOW details, with
404 when none match. -/
def updateSowDetails (st : MState) (oid : String) (u : SowUpdateDict) :
    Except HttpError SowDetailsDoc × MState :=
  if u.isEmpty then (.error ⟨400, "No fields to update"⟩, st)
  else
    let st1 := signedProjectTrigger st oid u
    let r := updateFirst (fun d => d.opportunityId == oid) u.apply st1.sowDetails
    if r.1 then
      let st2 := { st1 with sowDetails := r.2 }
      match st2.sowDetails.find? (fun d => d.opportunityId == oid) with
      | some updated => (.ok updated, st2)
      | none => (.error ⟨404, "SOW details not found"⟩, st2)
    else (.error ⟨404, "SOW details not found"⟩, st1)

/-- `upload_rfp_document` (router lines 423-474): 404 on a missing
opportunity, 400 when no RFP details exist, then insert the document
record (file storage is an excluded external collaborator). -/
def uploadRfpDocument (st : MState) (oid fileName : String) :
    Except HttpError RfpDocumentDoc × MState :=
  if (st.opportunities.find? (fun d => d.opportunityId == oid)).isNone then
    (.error ⟨404, "Opportunity not found"⟩, st)
  else if (st.rfpDetails.find? (fun d => d.opportunityId == oid)).isNone then
    (.error ⟨400, "RFP details not found. Please create RFP details first."⟩, st)
  else
    let doc : RfpDocumentDoc :=
      { mid := freshId st.nextOid, opportunityId := oid, fileName := fileName }
    (.ok doc, { st with rfpDocuments := st.rfpDocuments ++ [doc], nextOid := st.nextOid + 1 })

/-- `upload_sow_document` (router lines 666-716): 404 on a missing
opportunity, 400 when no SOW details exist, then insert the document
record keyed by `str(sow_details["_id"])`. -/
def uploadSowDocument (st : MState) (oid fileName : String) :
    Except HttpError SowDocumentDoc × MState :=
  if (st.opportunities.find? (fun d => d.opportunityId == oid)).isNone then
    (.error ⟨404, "Opportunity not found"⟩, st)
  else
    match st.sowDetails.find? (fun d => d.opportunityId == oid) with
    | none => (.error ⟨400, "SOW details not found. Please create SOW details first."⟩, st)
    | some sow =>
      let doc : SowDocumentDoc :=
        { mid := freshId st.nextOid, sowId := sow.mid, fileName := fileName }
      (.ok doc, { st with sowDocuments := st.sowDocuments ++ [doc], nextOid := st.nextOid + 1 })

/-- `delete_sow_document` (router lines 718-764): 404 on a missing
opportunity, SOW details or document, then `delete_one` by document id. -/
def deleteSowDocument (st : MState) (oid docId : String) : Except HttpError Unit × MState :=
  if (st.opportunities.find? (fun d => d.opportunityId == oid)).isNone then
    (.error ⟨404, "Opportunity not found"⟩, st)
  else
    match st.sowDetails.find? (fun d => d.opportunityId == oid) with
    | none => (.error ⟨404, "SOW details not found"⟩, st)
    | some sow =>
      match st.sowDocuments.find? (fun d => d.mid == docId && d.sowId == sow.mid) with
      | none => (.error ⟨404, "Document not found"⟩, st)
      | some _ =>
        let r := deleteOne (fun d => d.mid == docId) st.sowDocuments
        (.ok (), { st with sowDocuments := r.2 })

/-- The mutating operations of the mongo opportunity router. -/
inductive MOp
  | updOpp (oid : String) (u : OppUpdateDict)
  | delOpp (oid : String)
  | mkRfp (oid : String) (r : RfpCreate)
  | updRfp (oid : String) (u : RfpUpdateDict)
  | upRfpDoc (oid fileName : String)
  | delRfpDoc (oid docId : String)
  | mkSow (oid : String) (s : SowCreate)
  | updSow (oid : String) (u : SowUpdateDict)
  | upSowDoc (oid fileName : String)
  | delSowDoc (oid docId : String)
deriving DecidableEq, Repr

/-- The state reached after one operation of the module. -/
def mstep (st : MState) : MOp → MState
  | .updOpp oid u => (updateOpportunity st oid u).2
  | .delOpp oid => (deleteOpportunity st oid).2
  | .mkRfp oid r => (createRfpDetails st oid r).2
  | .updRfp oid u => (updateRfpDetails st oid u).2
  | .upRfpDoc oid f => (uploadRfpDocument st oid f).2
  | .delRfpDoc oid d => (deleteRfpDocument st oid d).2
  | .mkSow oid s => (createSowDetails st oid s).2
  | .updSow oid u => (updateSowDetails st oid u).2
  | .upSowDoc oid f => (uploadSowDocument st oid f).2
  | .delSowDoc oid d => (deleteSowDocument st oid d).2

/-! ## Handlers of `backend/routers/opportunity_collections.py`

Every handler body is wrapped in `try/except`, turning any exception from
the database driver into a 500 response whose detail prepends a
handler-specific message; the injected `fault` argument models such a
driver exception at the handler's first database access.
`update_opportunity` and `get_complete_opportunity` additionally re-raise
`HTTPException` unchanged.

Documents of these collections carry their raw `_id` as an
`Option String`: `create_opportunity` inserts
`opportunity.model_dump(by_alias=True)`, whose `id` field defaults to
`None`, so the stored `_id` is null, and a second such insert violates the
unique `_id` index (duplicate key error).  `update_opportunity` filters on
a literal `"id"` key, which no writer of this module ever stores;
`idField` carries that key. -/

/-- A document of the collections-router `opportunities` collection. -/
structure OppCDoc where
  mid : Option String
  idField : Option String
  opportunity_id : String
  opportunity_name : String
  client_name : String
  currency : String
  pipeline_status : String
  status : String
deriving DecidableEq, Repr

/-- A document of the `rfp_details` collection. -/
structure RfpCDoc where
  mid : Option String
  opportunity_id : String
  rfp_title : String
deriving DecidableEq, Repr

/-- A document of the `rfp_documents` collection. -/
structure RfpDocC where
  mid : Option String
  opportunity_id : String
  file_name : String
deriving DecidableEq, Repr

/-- A document of the `sow_details` collection. -/
structure SowCDoc where
  mid : Option String
  opportunity_id : String
  sow_status : String
deriving DecidableEq, Repr

/-- A document of the `sow_documents` collection; `sow_id` references a
`sow_details` document by `str(_id)`. -/
structure SowDocC where
  mid : Option String
  sow_id : String
  file_name : String
deriving DecidableEq, Repr

/-- The database state seen by `routers/opportunity_collections.py`. -/
structure CState where
  opportunities : List OppCDoc
  rfp_details : List RfpCDoc
  rfp_documents : List RfpDocC
  sow_details : List SowCDoc
  sow_documents : List SowDocC
deriving DecidableEq, Repr

/-- Python `str(...)` on a raw `_id` value: `str(None)` is `"None"`. -/
def strOfObjId : Option String → String
  | some s => s
  | none => "None"

/-- The id-generation of `create_opportunity` (collections router lines
100-108): parse the numeric suffix of the lexicographically greatest
`opportunity_id` and add one, or start at 1; `.error` models the
`ValueError`/`IndexError` a malformed id raises. -/
def genOppNum (opps : List OppCDoc) : Except String Nat :=
  match findOneSortDesc (fun d => d.opportunity_id) opps with
  | none => .ok 1
  | some last =>
    if last.opportunity_id == "" then .ok 1
    else
      match parseOppNum last.opportunity_id with
      | some n => .ok (n + 1)
      | none => .error "invalid opportunity_id"

/-- The validated `OpportunityMongo` body of `create_opportunity`
(an empty `opportunity_id` is falsy and triggers generation). -/
structure OppCCreate where
  opportunity_id : String
  opportunity_name : String
  client_name : String
  currency : String
  pipeline_status : String
  status : String
deriving DecidableEq, Repr

/-- `create_opportunity` (collections router lines 88-130): generate the
`OPP-` id when none is given and insert; the inserted document carries a
null `_id`, so the insert fails on a duplicate null `_id`. -/
def createOpportunityC (st : CState) (fault : Option String) (o : OppCCreate) :
    Except HttpError OppCDoc × CState :=
  match fault with
  | some msg => (.error ⟨500, "Failed to create opportunity: " ++ msg⟩, st)
  | none =>
    let idRes : Except String String :=
      if o.opportunity_id == "" then
        match genOppNum st.opportunities with
        | .ok n => .ok ("OPP-" ++ pad3 n)
        | .error e => .error e
      else .ok o.opportunity_id
    match idRes with
    | .error msg => (.error ⟨500, "Failed to create opportunity: " ++ msg⟩, st)
    | .ok oid =>
      if st.opportunities.any (fun d => d.mid == (none : Option String)) then
        (.error ⟨500, "Failed to create opportunity: duplicate key"⟩, st)
      else
        let doc : OppCDoc :=
          { mid := none, idField := none, opportunity_id := oid,
            opportunity_name := o.opportunity_name, client_name := o.client_name,
            currency := o.currency, pipeline_status := o.pipeline_status,
            status := o.status }
        (.ok doc, { st with opportunities := st.opportunities ++ [doc] })

/-- `get_opportunities` (collections router lines 55-86): optional
status / pipeline-status filters (an empty query value is falsy and adds
no filter), then `skip` and `limit`.  Its `status` query parameter
(line 59) shadows the imported fastapi `status` module inside the
function body, so on a database exception the except block at lines
83-86 itself raises `AttributeError` while evaluating
`status.HTTP_500_INTERNAL_SERVER_ERROR`: the handler's wrapped detail is
never built, and the framework's outermost error handler answers with
its generic 500 response, discarding the exception text. -/
def getOpportunitiesC (st : CState) (fault : Option String)
    (statusQ pipelineQ : Option String) (skip limit : Nat) :
    Except HttpError (List OppCDoc) :=
  match fault with
  | some _ => .error ⟨500, "Internal Server Error"⟩
  | none =>
    let keep := fun (d : OppCDoc) =>
      (match statusQ with
       | none => true
       | some s => s == "" || d.status == s) &&
      (match pipelineQ with
       | none => true
       | some p => p == "" || d.pipeline_status == p)
    .ok (((st.opportunities.filter keep).drop skip).take limit)

/-- The raw update dict accepted by the collections-router
`update_opportunity`. -/
structure OppCUpdateDict where
  opportunity_name : Option String := none
  client_name : Option String := none
  pipeline_status : Option String := none
  status : Option String := none
deriving DecidableEq, Repr

/-- `$set` of a raw update dict on an opportunity document. -/
def OppCUpdateDict.apply (u : OppCUpdateDict) (d : OppCDoc) : OppCDoc where
  mid := d.mid
  idField := d.idField
  opportunity_id := d.opportunity_id
  opportunity_name := u.opportunity_name.getD d.opportunity_name
  client_name := u.client_name.getD d.client_name
  currency := d.currency
  pipeline_status := u.pipeline_status.getD d.pipeline_status
  status := u.status.getD d.status

/-- `update_opportunity` (collections router lines 132-178): looks the
opportunity up by a literal `"id"` field, 404 when absent, then `$set`;
`HTTPException` is re-raised, other exceptions become 500. -/
def updateOpportunityC (st : CState) (fault : Option String) (oid : String)
    (u : OppCUpdateDict) : Except HttpError OppCDoc × CState :=
  match fault with
  | some msg => (.error ⟨500, "Failed to update opportunity: " ++ msg⟩, st)
  | none =>
    match st.opportunities.find? (fun d => d.idField == some oid) with
    | none => (.error ⟨404, "Opportunity not found"⟩, st)
    | some _ =>
      let r := updateFirst (fun d => d.idField == some oid) u.apply st.opportunities
      if r.1 then
        let st2 := { st with opportunities := r.2 }
        match st2.opportunities.find? (fun d => d.idField == some oid) with
        | some updated => (.ok updated, st2)
        | none => (.error ⟨500, "Failed to update opportunity: missing document"⟩, st2)
      else (.error ⟨404, "Opportunity not found"⟩, st)

/-- The aggregate returned by `get_complete_opportunity`. -/
structure CompleteView where
  opportunity : OppCDoc
  rfp_details : Option RfpCDoc
  rfp_documents : List RfpDocC
  sow_details : Option SowCDoc
  sow_documents : List SowDocC
deriving DecidableEq, Repr

/-- `get_complete_opportunity` (collections router lines 395-468): the
opportunity with its RFP details, up to 100 RFP documents, SOW details and
up to 100 SOW documents keyed by `str(sow_details.get("_id"))`; 404 when
the opportunity is absent, re-raised past the generic 500 wrapper. -/
def getCompleteOpportunityC (st : CState) (fault : Option String) (oid : String) :
    Except HttpError CompleteView :=
  match fault with
  | some msg => .error ⟨500, "Failed to get complete opportunity: " ++ msg⟩
  | none =>
    match st.opportunities.find? (fun d => d.opportunity_id == oid) with
    | none => .error ⟨404, "Opportunity not found"⟩
    | some opp =>
      let rfp := st.rfp_details.find? (fun d => d.opportunity_id == oid)
      let rfpDocs := (st.rfp_documents.filter (fun d => d.opportunity_id == oid)).take 100
      let sow := st.sow_details.find? (fun d => d.opportunity_id == oid)
      let sowDocs :=
        match sow with
        | some s => (st.sow_documents.filter (fun d => d.sow_id == strOfObjId s.mid)).take 100
        | none => []
      .ok ⟨opp, rfp, rfpDocs, sow, sowDocs⟩

/-- At most one document per key: the key column is duplicate-free. -/
def atMostOnePerKey (key : α → String) (l : List α) : Prop :=
  (l.map key).Pairwise (fun a b => a ≠ b)

instance (key : α → String) (l : List α) : Decidable (atMostOnePerKey key l) :=
  inferInstanceAs (Decidable ((l.map key).Pairwise _))

/-! ## Sample data for concrete witnesses -/

/-- A sample stored opportunity. -/
def opp1 : OppDoc where
  mid := "m1"
  opportunityId := "OPP-001"
  opportunityName := "Acme Portal"
  clientName := "Acme"
  amount := 120
  currency := "USD"
  value := 7
  pipelineStatus := "Proposal"
  winProbability := 60

/-- A sample state holding one opportunity and nothing else. -/
def st0 : MState where
  opportunities := [opp1]
  rfpDetails := []
  rfpDocuments := []
  sowDetails := []
  sowDocuments := []
  projects := []
  nextOid := 0

/-- An update dict carrying the converted pipeline status literal. -/
def convUpd : OppUpdateDict := { pipelineStatus := some "Converted to SOW" }

/-- An update dict carrying SOW status "Signed". -/
def signedUpd : SowUpdateDict := { sowStatus := some "Signed" }

/-! ## C4: the at-most-one-RFP / at-most-one-SOW invariant -/

/-- Each opportunity id has at most one `rfpDetails` and at most one
`sowDetails` document. -/
def Inv (st : MState) : Prop :=
  atMostOnePerKey RfpDetailsDoc.opportunityId st.rfpDetails ∧
  atMostOnePerKey SowDetailsDoc.opportunityId st.sowDetails

instance (st : MState) : Decidable (Inv st) := inferInstanceAs (Decidable (_ ∧ _))

/-! ## C5: the combined complete-view endpoint -/

/-- The `i`-th of 51 RFP documents attached to `OPP-001`. -/
def rfpDoc51 (i : Nat) : RfpDocumentDoc where
  mid := "d" ++ toString i
  opportunityId := "OPP-001"
  fileName := "f"

/-- A state holding 51 RFP documents for `OPP-001`. -/
def st51 : MState := { st0 with rfpDocuments := (List.range 51).map rfpDoc51 }

/-! ## C7: error surfacing in the collections router -/

/-- A sample collections-router opportunity document. -/
def copp1 : OppCDoc where
  mid := some "c1"
  idField := none
  opportunity_id := "OPP-001"
  opportunity_name := "Acme Portal"
  client_name := "Acme"
  currency := "USD"
  pipeline_status := "Prospecting"
  status := "Active"

/-- A sample collections-router state. -/
def cst0 : CState where
  opportunities := [copp1]
  rfp_details := []
  rfp_documents := []
  sow_details := []
  sow_documents := []

/-- The `i`-indexed sample documents of the cascade-delete witness state. -/
def st8 : MState where
  opportunities := [opp1,
    ⟨"m2", "OPP-002", "Beta", "BetaCorp", 50, "EUR", 0, "Proposal", 20⟩]
  rfpDetails := [⟨"r1", "OPP-001", "T1", "Draft"⟩, ⟨"r2", "OPP-002", "T2", "Draft"⟩]
  rfpDocuments := [⟨"d1", "OPP-001", "f1"⟩]
  sowDetails := [⟨"s1", "OPP-001", "T1", "Draft", 5, "USD", 0⟩,
    ⟨"s2", "OPP-002", "T2", "Draft", 6, "EUR", 0⟩]
  sowDocuments := [⟨"w1", "s1", "g1"⟩, ⟨"w2", "s2", "g2"⟩]
  projects := []
  nextOid := 9

/-! ## C10: opportunity-id generation in the collections router -/

/-- An empty collections-router state. -/
def cempty : CState where
  opportunities := []
  rfp_details := []
  rfp_documents := []
  sow_details := []
  sow_documents := []

/-- A create request without an opportunity id (empty string is falsy). -/
def creq : OppCCreate where
  opportunity_id := ""
  opportunity_name := "New Deal"
  client_name := "Acme"
  currency := "USD"
  pipeline_status := "Prospecting"
  status := "Active"

/-- The first witness document, id `OPP-001` with a real `_id`. -/
def copp1x : OppCDoc := { copp1 with mid := some "x1" }

/-- The second witness document, id `OPP-003` with a real `_id`. -/
def copp3 : OppCDoc := { copp1 with mid := some "x2", opportunity_id := "OPP-003" }

/-- A witness state whose ids are `OPP-001` and `OPP-003`. -/
def cst10 : CState where
  opportunities := [copp1x, copp3]
  rfp_details := []
  rfp_documents := []
  sow_details := []
  sow_documents := []

/-! ## Theorems -/

theorem updateFirst_map_eq (p : α → Bool) (f : α → α) (key : α → σ)
    (hf : ∀ x, key (f x) = key x) :
    ∀ l : List α, (updateFirst p f l).2.map key = l.map key := by
  intro l
  induction l with
  | nil => rfl
  | cons x xs ih =>
    by_cases h : p x = true
    · simp [updateFirst, h, hf]
    · simp only [Bool.not_eq_true] at h
      simp [updateFirst, h, ih]

theorem deleteOne_sublist (p : α → Bool) :
    ∀ l : List α, (deleteOne p l).2.Sublist l := by
  intro l
  induction l with
  | nil => simp [deleteOne]
  | cons x xs ih =>
    by_cases h : p x = true
    · simp [deleteOne, h]
    · simp only [Bool.not_eq_true] at h
      simp only [deleteOne, h]
      exact List.Sublist.cons₂ x ih

theorem deleteOne_fst_eq_any (p : α → Bool) :
    ∀ l : List α, (deleteOne p l).1 = l.any p := by
  intro l
  induction l with
  | nil => rfl
  | cons x xs ih =>
    by_cases h : p x = true
    · simp [deleteOne, h]
    · simp only [Bool.not_eq_true] at h
      simp [deleteOne, h, ih]

theorem mem_of_mem_deleteOne (p : α → Bool) (l : List α) :
    ∀ x ∈ (deleteOne p l).2, x ∈ l := by
  intro x hx
  exact (deleteOne_sublist p l).mem hx

theorem deleteOne_snd_eq_of_not_any (p : α → Bool) :
    ∀ l : List α, l.any p = false → (deleteOne p l).2 = l := by
  intro l
  induction l with
  | nil => intro; rfl
  | cons x xs ih =>
    intro h
    simp only [List.any_cons, Bool.or_eq_false_iff] at h
    simp [deleteOne, h.1, ih h.2]

theorem charsLt_irrefl : ∀ l : List Char, charsLt l l = false := by
  intro l
  induction l with
  | nil => rfl
  | cons a as ih => simp [charsLt, ih]

theorem charsLt_trans :
    ∀ a b c : List Char, charsLt a b = true → charsLt b c = true → charsLt a c = true := by
  intro a
  induction a with
  | nil =>
    intro b c hab hbc
    cases c with
    | nil =>
      cases b with
      | nil => exact hab
      | cons y ys => simp [charsLt] at hbc
    | cons z zs => simp [charsLt]
  | cons x xs ih =>
    intro b c hab hbc
    cases b with
    | nil => simp [charsLt] at hab
    | cons y ys =>
      cases c with
      | nil => simp [charsLt] at hbc
      | cons z zs =>
        simp only [charsLt] at hab hbc ⊢
        by_cases hxy : x.toNat < y.toNat
        · by_cases hyz : y.toNat < z.toNat
          · simp [Nat.lt_trans hxy hyz]
          · simp only [hyz, if_false] at hbc
            by_cases hzy : z.toNat < y.toNat
            · simp [hzy] at hbc
            · have : y.toNat = z.toNat := Nat.le_antisymm (Nat.le_of_not_lt hzy) (Nat.le_of_not_lt hyz)
              simp [this ▸ hxy]
        · simp only [hxy, if_false] at hab
          by_cases hyx : y.toNat < x.toNat
          · simp [hyx] at hab
          · simp only [hyx, if_false] at hab
            have hxyeq : x.toNat = y.toNat := Nat.le_antisymm (Nat.le_of_not_lt hyx) (Nat.le_of_not_lt hxy)
            by_cases hyz : y.toNat < z.toNat
            · simp [hxyeq ▸ hyz]
            · simp only [hyz, if_false] at hbc
              by_cases hzy : z.toNat < y.toNat
              · simp [hzy] at hbc
              · simp only [hzy, if_false] at hbc
                have hyzeq : y.toNat = z.toNat := Nat.le_antisymm (Nat.le_of_not_lt hzy) (Nat.le_of_not_lt hyz)
                have hxz : ¬ x.toNat < z.toNat := by omega
                have hzx : ¬ z.toNat < x.toNat := by omega
                simp only [hxz, if_false, hzx]
                exact ih ys zs hab hbc

theorem strLtb_irrefl (s : String) : strLtb s s = false := charsLt_irrefl s.data

theorem strLtb_trans {a b c : String} (h1 : strLtb a b = true) (h2 : strLtb b c = true) :
    strLtb a c = true := charsLt_trans a.data b.data c.data h1 h2

theorem charsLt_not_trans :
    ∀ a b c : List Char, charsLt a b = false → charsLt b c = false → charsLt a c = false := by
  intro a
  induction a with
  | nil =>
    intro b c hab hbc
    cases b with
    | nil =>
      cases c with
      | nil => rfl
      | cons z zs => simp [charsLt] at hbc
    | cons y ys => simp [charsLt] at hab
  | cons x xs ih =>
    intro b c hab hbc
    cases c with
    | nil => cases b <;> rfl
    | cons z zs =>
      cases b with
      | nil => simp [charsLt] at hbc
      | cons y ys =>
        simp only [charsLt] at hab hbc ⊢
        by_cases hxy : x.toNat < y.toNat
        · simp [hxy] at hab
        · simp only [hxy, if_false] at hab
          by_cases hyz : y.toNat < z.toNat
          · simp [hyz] at hbc
          · simp only [hyz, if_false] at hbc
            by_cases hyx : y.toNat < x.toNat
            · -- z ≤ y < x, so comparing x with z immediately yields false
              have hzx : z.toNat < x.toNat := Nat.lt_of_le_of_lt (Nat.le_of_not_lt hyz) hyx
              have hxz : ¬ x.toNat < z.toNat := Nat.lt_asymm hzx
              simp [hxz, hzx]
            · simp only [hyx, if_false] at hab
              by_cases hzy : z.toNat < y.toNat
              · have hzx : z.toNat < x.toNat := Nat.lt_of_lt_of_le hzy (Nat.le_of_not_lt hxy)
                have hxz : ¬ x.toNat < z.toNat := Nat.lt_asymm hzx
                simp [hxz, hzx]
              · simp only [hzy, if_false] at hbc
                have hxz : ¬ x.toNat < z.toNat := by omega
                have hzx : ¬ z.toNat < x.toNat := by omega
                simp only [hxz, if_false, hzx]
                exact ih ys zs hab hbc

theorem strLtb_not_trans {a b c : String} (h1 : strLtb a b = false) (h2 : strLtb b c = false) :
    strLtb a c = false := charsLt_not_trans a.data b.data c.data h1 h2

theorem foldl_maxStep_spec (key : α → String) :
    ∀ (ds : List α) (a : α),
      (ds.foldl (maxStep key) a) ∈ (a :: ds) ∧
      strLtb (key (ds.foldl (maxStep key) a)) (key a) = false ∧
      ∀ x ∈ ds, strLtb (key (ds.foldl (maxStep key) a)) (key x) = false := by
  intro ds
  induction ds with
  | nil =>
    intro a
    refine ⟨List.mem_cons_self _ _, strLtb_irrefl _, ?_⟩
    intro x hx; cases hx
  | cons d ds ih =>
    intro a
    simp only [List.foldl_cons]
    obtain ⟨hmem, hacc, hmax⟩ := ih (maxStep key a d)
    by_cases hlt : strLtb (key a) (key d) = true
    · have hstep : maxStep key a d = d := by simp [maxStep, hlt]
      rw [hstep] at hmem hacc hmax ⊢
      refine ⟨?_, ?_, ?_⟩
      · rcases List.mem_cons.mp hmem with h' | h'
        · rw [h']; exact List.mem_cons_of_mem _ (List.mem_cons_self _ _)
        · exact List.mem_cons_of_mem _ (List.mem_cons_of_mem _ h')
      · -- result not below a: result below a plus a below d would put result below d
        by_cases habs : strLtb (key (ds.foldl (maxStep key) d)) (key a) = true
        · have := strLtb_trans habs hlt
          rw [hacc] at this; cases this
        · simpa using habs
      · intro x hx
        rcases List.mem_cons.mp hx with rfl | hx'
        · exact hacc
        · exact hmax x hx'
    · simp only [Bool.not_eq_true] at hlt
      have hstep : maxStep key a d = a := by simp [maxStep, hlt]
      rw [hstep] at hmem hacc hmax ⊢
      refine ⟨?_, hacc, ?_⟩
      · rcases List.mem_cons.mp hmem with h' | h'
        · rw [h']; exact List.mem_cons_self _ _
        · exact List.mem_cons_of_mem _ (List.mem_cons_of_mem _ h')
      · intro x hx
        rcases List.mem_cons.mp hx with rfl | hx'
        · exact strLtb_not_trans hacc hlt
        · exact hmax x hx'

theorem findOneSortDesc_spec (key : α → String) (l : List α) :
    (l = [] ∧ findOneSortDesc key l = none) ∨
      ∃ m, findOneSortDesc key l = some m ∧ m ∈ l ∧
        ∀ x ∈ l, strLtb (key m) (key x) = false := by
  cases l with
  | nil => exact Or.inl ⟨rfl, rfl⟩
  | cons x xs =>
    obtain ⟨hmem, hacc, hmax⟩ := foldl_maxStep_spec key xs x
    refine Or.inr ⟨_, rfl, hmem, ?_⟩
    intro z hz
    rcases List.mem_cons.mp hz with rfl | hz'
    · exact hacc
    · exact hmax z hz'

set_option maxRecDepth 8000 in
theorem parseOppNum_oppIdOf : ∀ n < 1001, parseOppNum (oppIdOf n) = some n := by decide

set_option maxRecDepth 8000 in
theorem oppIdOf_strLtb_succ : ∀ n < 999, strLtb (oppIdOf n) (oppIdOf (n + 1)) = true := by decide

theorem oppIdOf_strLtb_of_lt {a b : Nat} (hb : b < 1000) (hab : a < b) :
    strLtb (oppIdOf a) (oppIdOf b) = true := by
  induction b with
  | zero => cases hab
  | succ b ih =>
    rcases Nat.lt_succ_iff_lt_or_eq.mp hab with h | rfl
    · exact strLtb_trans (ih (Nat.lt_of_succ_lt hb) h)
        (oppIdOf_strLtb_succ b (Nat.lt_of_succ_lt_succ hb))
    · exact oppIdOf_strLtb_succ a (Nat.lt_of_succ_lt_succ hb)

theorem oppIdOf_injOn {a b : Nat} (ha : a < 1001) (hb : b < 1001)
    (h : oppIdOf a = oppIdOf b) : a = b := by
  have := parseOppNum_oppIdOf a ha
  rw [h, parseOppNum_oppIdOf b hb] at this
  exact (Option.some_injective _ this).symm

/-! ## Generic helper lemmas -/

theorem updateFirst_fst_eq_any (p : α → Bool) :
    ∀ l : List α, (updateFirst p f l).1 = l.any p := by
  intro l
  induction l with
  | nil => rfl
  | cons x xs ih =>
    by_cases h : p x = true
    · simp [updateFirst, h]
    · simp only [Bool.not_eq_true] at h
      simp [updateFirst, h, ih]

theorem find?_key_eq_some_iff (key : α → String) (oid : String) (l : List α)
    (h : atMostOnePerKey key l) (r : α) :
    l.find? (fun x => key x == oid) = some r ↔ r ∈ l ∧ key r = oid := by
  induction l with
  | nil => simp
  | cons a as ih =>
    rw [atMostOnePerKey, List.map_cons, List.pairwise_cons] at h
    by_cases ha : key a = oid
    · simp only [List.find?_cons, ha, beq_self_eq_true, Option.some.injEq]
      constructor
      · rintro rfl
        exact ⟨List.mem_cons_self _ _, ha⟩
      · rintro ⟨hr, hkr⟩
        rcases List.mem_cons.mp hr with rfl | hr'
        · rfl
        · exact absurd (ha.trans hkr.symm) (h.1 (key r) (List.mem_map_of_mem key hr'))
    · have hb : (key a == oid) = false := beq_eq_false_iff_ne.mpr ha
      simp only [List.find?_cons, hb]
      rw [ih h.2]
      constructor
      · rintro ⟨hr, hkr⟩
        exact ⟨List.mem_cons_of_mem _ hr, hkr⟩
      · rintro ⟨hr, hkr⟩
        rcases List.mem_cons.mp hr with rfl | hr'
        · exact absurd hkr ha
        · exact ⟨hr', hkr⟩

theorem find?_key_eq_none_iff (key : α → String) (oid : String) (l : List α) :
    l.find? (fun x => key x == oid) = none ↔ ∀ x ∈ l, key x ≠ oid := by
  rw [List.find?_eq_none]
  constructor
  · intro h x hx
    exact fun heq => by simpa [heq] using h x hx
  · intro h x hx
    simpa using h x hx

/-! ## Behavior of the lifecycle triggers -/

theorem convertedSowTrigger_insert (st : MState) (oid : String) (opp : OppDoc)
    (u : OppUpdateDict)
    (hu : u.pipelineStatus = some "Converted to SOW")
    (hn : st.sowDetails.find? (fun s => s.opportunityId == oid) = none) :
    convertedSowTrigger st oid opp u =
      { st with sowDetails := st.sowDetails ++ [mkAutoSow st oid opp],
                nextOid := st.nextOid + 1 } := by
  simp [convertedSowTrigger, hu, hn]

theorem convertedSowTrigger_stay (st : MState) (oid : String) (opp : OppDoc)
    (u : OppUpdateDict)
    (h : (u.pipelineStatus == some "Converted to SOW") = false ∨
      (st.sowDetails.find? (fun s => s.opportunityId == oid)).isSome) :
    convertedSowTrigger st oid opp u = st := by
  rcases h with h | h
  · simp [convertedSowTrigger, h]
  · obtain ⟨s, hs⟩ := Option.isSome_iff_exists.mp h
    simp [convertedSowTrigger, hs]

theorem convertedSowTrigger_parts (st : MState) (oid : String) (opp : OppDoc)
    (u : OppUpdateDict) :
    (convertedSowTrigger st oid opp u).opportunities = st.opportunities ∧
    (convertedSowTrigger st oid opp u).rfpDetails = st.rfpDetails ∧
    (convertedSowTrigger st oid opp u).rfpDocuments = st.rfpDocuments ∧
    (convertedSowTrigger st oid opp u).sowDocuments = st.sowDocuments ∧
    (convertedSowTrigger st oid opp u).projects = st.projects := by
  unfold convertedSowTrigger
  repeat' split
  all_goals exact ⟨rfl, rfl, rfl, rfl, rfl⟩

theorem signedProjectTrigger_insert (st : MState) (oid : String) (u : SowUpdateDict)
    (opp : OppDoc)
    (hf : st.opportunities.find? (fun d => d.opportunityId == oid) = some opp)
    (hs : u.sowStatus = some "Signed")
    (hnp : st.projects.countP (fun p => p.linked_opportunity_id == oid) = 0) :
    signedProjectTrigger st oid u =
      { st with projects := st.projects ++ [mkAutoProject st oid opp u],
                nextOid := st.nextOid + 1 } := by
  simp [signedProjectTrigger, hf, hs, hnp]

theorem signedProjectTrigger_stay (st : MState) (oid : String) (u : SowUpdateDict)
    (h : (u.sowStatus == some "Signed") = false ∨
      st.opportunities.find? (fun d => d.opportunityId == oid) = none ∨
      st.projects.countP (fun p => p.linked_opportunity_id == oid) ≠ 0) :
    signedProjectTrigger st oid u = st := by
  rcases h with h | h | h
  · simp [signedProjectTrigger, h]
  · simp [signedProjectTrigger, h]
  · have hc : (st.projects.countP (fun p => p.linked_opportunity_id == oid) == 0) = false := by
      simpa using h
    unfold signedProjectTrigger
    split
    · split
      · simp [hc]
      · rfl
    · rfl

theorem signedProjectTrigger_parts (st : MState) (oid : String) (u : SowUpdateDict) :
    (signedProjectTrigger st oid u).opportunities = st.opportunities ∧
    (signedProjectTrigger st oid u).rfpDetails = st.rfpDetails ∧
    (signedProjectTrigger st oid u).rfpDocuments = st.rfpDocuments ∧
    (signedProjectTrigger st oid u).sowDetails = st.sowDetails ∧
    (signedProjectTrigger st oid u).sowDocuments = st.sowDocuments := by
  unfold signedProjectTrigger
  repeat' split
  all_goals exact ⟨rfl, rfl, rfl, rfl, rfl⟩

/-! ## Projections of the update handlers -/

theorem updateOpportunity_snd_sowDetails (st : MState) (oid : String) (u : OppUpdateDict) :
    (updateOpportunity st oid u).2.sowDetails =
      if u.isEmpty then st.sowDetails
      else
        match st.opportunities.find? (fun d => d.opportunityId == oid) with
        | none => st.sowDetails
        | some opp => (convertedSowTrigger st oid opp u).sowDetails := by
  by_cases he : u.isEmpty = true
  · simp [updateOpportunity, he]
  · simp only [Bool.not_eq_true] at he
    cases hf : st.opportunities.find? (fun d => d.opportunityId == oid) with
    | none => simp [updateOpportunity, he, hf]
    | some opp =>
      simp only [updateOpportunity, he, Bool.false_eq_true, if_false, hf]
      split
      · split <;> rfl
      · rfl

theorem updateOpportunity_snd_parts (st : MState) (oid : String) (u : OppUpdateDict) :
    (updateOpportunity st oid u).2.rfpDetails = st.rfpDetails ∧
    (updateOpportunity st oid u).2.rfpDocuments = st.rfpDocuments ∧
    (updateOpportunity st oid u).2.sowDocuments = st.sowDocuments ∧
    (updateOpportunity st oid u).2.projects = st.projects := by
  by_cases he : u.isEmpty = true
  · simp [updateOpportunity, he]
  · simp only [Bool.not_eq_true] at he
    cases hf : st.opportunities.find? (fun d => d.opportunityId == oid) with
    | none => simp [updateOpportunity, he, hf]
    | some opp =>
      obtain ⟨_, h2, h3, h4, h5⟩ := convertedSowTrigger_parts st oid opp u
      simp only [updateOpportunity, he, Bool.false_eq_true, if_false, hf]
      split
      · split <;> exact ⟨h2, h3, h4, h5⟩
      · exact ⟨h2, h3, h4, h5⟩

theorem updateOpportunity_not_found (st : MState) (oid : String) (u : OppUpdateDict)
    (he : u.isEmpty = false)
    (hf : st.opportunities.find? (fun d => d.opportunityId == oid) = none) :
    updateOpportunity st oid u = (.error ⟨404, "Opportunity not found"⟩, st) := by
  simp [updateOpportunity, he, hf]

theorem updateSowDetails_snd_projects (st : MState) (oid : String) (u : SowUpdateDict) :
    (updateSowDetails st oid u).2.projects =
      if u.isEmpty then st.projects
      else (signedProjectTrigger st oid u).projects := by
  by_cases he : u.isEmpty = true
  · simp [updateSowDetails, he]
  · simp only [Bool.not_eq_true] at he
    simp only [updateSowDetails, he, Bool.false_eq_true, if_false]
    split
    · split <;> rfl
    · rfl

theorem updateSowDetails_snd_parts (st : MState) (oid : String) (u : SowUpdateDict) :
    (updateSowDetails st oid u).2.opportunities = st.opportunities ∧
    (updateSowDetails st oid u).2.rfpDetails = st.rfpDetails ∧
    (updateSowDetails st oid u).2.rfpDocuments = st.rfpDocuments ∧
    (updateSowDetails st oid u).2.sowDocuments = st.sowDocuments := by
  by_cases he : u.isEmpty = true
  · simp [updateSowDetails, he]
  · simp only [Bool.not_eq_true] at he
    obtain ⟨h1, h2, h3, _, h5⟩ := signedProjectTrigger_parts st oid u
    simp only [updateSowDetails, he, Bool.false_eq_true, if_false]
    split
    · split <;> exact ⟨h1, h2, h3, h5⟩
    · exact ⟨h1, h2, h3, h5⟩

theorem updateSowDetails_sow_not_found (st : MState) (oid : String) (u : SowUpdateDict)
    (he : u.isEmpty = false)
    (hns : st.sowDetails.find? (fun s => s.opportunityId == oid) = none) :
    updateSowDetails st oid u =
      (.error ⟨404, "SOW details not found"⟩, signedProjectTrigger st oid u) := by
  have hsame : (signedProjectTrigger st oid u).sowDetails = st.sowDetails :=
    (signedProjectTrigger_parts st oid u).2.2.2.1
  have hany : st.sowDetails.any (fun s => s.opportunityId == oid) = false := by
    rw [List.any_eq_false]
    intro x hx
    have := List.find?_eq_none.mp hns x hx
    simpa using this
  simp only [updateSowDetails, he, Bool.false_eq_true, if_false, hsame,
    updateFirst_fst_eq_any, hany]

/-! ## Claims -/

theorem dump_pipelineStatus_ne_converted (u : OpportunityUpdate) :
    (u.dump.pipelineStatus == some "Converted to SOW") = false := by
  cases hp : u.pipelineStatus with
  | none => simp [OpportunityUpdate.dump, hp]
  | some ps => cases ps <;> simp [OpportunityUpdate.dump, hp, PipelineStatus.toStr]

/-- C1: the spec's converted-status auto-creation rule is dead code.
`"Converted to SOW"` is not a member of `PipelineStatus`, the type of
`OpportunityUpdate.pipelineStatus`, so no validated opportunity-update
request can make the trigger at router line 792 fire: for every state,
opportunity id and request, `update_opportunity` leaves the `sowDetails`
collection unchanged, and in particular never inserts the draft SOW
details the spec describes. -/
theorem claim_C1_converted_trigger_unreachable (st : MState) (oid : String)
    (u : OpportunityUpdate) :
    (updateOpportunity st oid u.dump).2.sowDetails = st.sowDetails := by
  rw [updateOpportunity_snd_sowDetails]
  split
  · rfl
  · split
    · rfl
    · rw [convertedSowTrigger_stay st oid _ _ (Or.inl (dump_pipelineStatus_ne_converted u))]

/-- C2: updating SOW details with status "Signed" for a stored opportunity
with no linked project appends exactly the auto-created project, which is
"Planned" and carries the opportunity's name, client and currency; with a
non-"Signed" status or an already-linked project, the `projects`
collection is unchanged. -/
theorem claim_C2_signed_sow_update_creates_project (st : MState) (oid : String)
    (u : SowUpdateDict) (opp : OppDoc)
    (hf : st.opportunities.find? (fun d => d.opportunityId == oid) = some opp) :
    (u.sowStatus = some "Signed" →
      st.projects.countP (fun p => p.linked_opportunity_id == oid) = 0 →
      (updateSowDetails st oid u).2.projects = st.projects ++ [mkAutoProject st oid opp u] ∧
      (mkAutoProject st oid opp u).status = "Planned" ∧
      (mkAutoProject st oid opp u).project_name = opp.opportunityName ∧
      (mkAutoProject st oid opp u).client_name = opp.clientName ∧
      (mkAutoProject st oid opp u).currency = opp.currency ∧
      (mkAutoProject st oid opp u).linked_opportunity_id = oid) ∧
    ((u.sowStatus ≠ some "Signed" ∨
        st.projects.countP (fun p => p.linked_opportunity_id == oid) ≠ 0) →
      (updateSowDetails st oid u).2.projects = st.projects) := by
  constructor
  · intro hs hnp
    have he : u.isEmpty = false := by simp [SowUpdateDict.isEmpty, hs]
    rw [updateSowDetails_snd_projects, he, if_neg (by simp),
      signedProjectTrigger_insert st oid u opp hf hs hnp]
    exact ⟨rfl, rfl, rfl, rfl, rfl, rfl⟩
  · intro h
    rw [updateSowDetails_snd_projects]
    by_cases he : u.isEmpty = true
    · rw [he, if_pos rfl]
    · simp only [Bool.not_eq_true] at he
      rw [he, if_neg (by simp)]
      refine congrArg MState.projects (signedProjectTrigger_stay st oid u ?_)
      rcases h with h | h
      · exact Or.inl (by simpa using h)
      · exact Or.inr (Or.inr h)

/-- C2 witness: on the sample state, the "Signed" update inserts the
"Planned" project for `OPP-001`. -/
theorem claim_C2_witness :
    (updateSowDetails st0 "OPP-001" signedUpd).2.projects =
      st0.projects ++ [mkAutoProject st0 "OPP-001" opp1 signedUpd] ∧
    (mkAutoProject st0 "OPP-001" opp1 signedUpd).status = "Planned" :=
  have h := claim_C2_signed_sow_update_creates_project st0 "OPP-001" signedUpd opp1
    (by decide)
  have h1 := h.1 rfl rfl
  ⟨h1.1, h1.2.1⟩

/-- C3: both check-then-insert rules, run twice in succession over the
update dicts the handlers operate on, leave exactly one auto-created
record: two converted-status opportunity updates leave exactly one
SOWDetails record for the opportunity, and two "Signed" SOW updates leave
exactly one project linked to it. -/
theorem claim_C3_triggers_idempotent :
    (∀ (st : MState) (oid : String) (u : OppUpdateDict) (opp : OppDoc),
      st.opportunities.find? (fun d => d.opportunityId == oid) = some opp →
      u.pipelineStatus = some "Converted to SOW" →
      st.sowDetails.countP (fun s => s.opportunityId == oid) = 0 →
      ((updateOpportunity (updateOpportunity st oid u).2 oid u).2.sowDetails.countP
        (fun s => s.opportunityId == oid)) = 1) ∧
    (∀ (st : MState) (oid : String) (u : SowUpdateDict) (opp : OppDoc),
      st.opportunities.find? (fun d => d.opportunityId == oid) = some opp →
      u.sowStatus = some "Signed" →
      st.projects.countP (fun p => p.linked_opportunity_id == oid) = 0 →
      ((updateSowDetails (updateSowDetails st oid u).2 oid u).2.projects.countP
        (fun p => p.linked_opportunity_id == oid)) = 1) := by
  constructor
  · intro st oid u opp hf hu hno
    have he : u.isEmpty = false := by simp [OppUpdateDict.isEmpty, hu]
    have hn : st.sowDetails.find? (fun s => s.opportunityId == oid) = none := by
      rw [List.find?_eq_none]
      intro x hx
      have := List.countP_eq_zero.mp hno x hx
      simpa using this
    have hfirst : (updateOpportunity st oid u).2.sowDetails =
        st.sowDetails ++ [mkAutoSow st oid opp] := by
      rw [updateOpportunity_snd_sowDetails, he, if_neg (by simp), hf]
      show (convertedSowTrigger st oid opp u).sowDetails = _
      rw [convertedSowTrigger_insert st oid opp u hu hn]
    have hcount1 : (updateOpportunity st oid u).2.sowDetails.countP
        (fun s => s.opportunityId == oid) = 1 := by
      rw [hfirst, List.countP_append, hno]
      simp [mkAutoSow]
    have hsecond : (updateOpportunity (updateOpportunity st oid u).2 oid u).2.sowDetails =
        (updateOpportunity st oid u).2.sowDetails := by
      rw [updateOpportunity_snd_sowDetails, he, if_neg (by simp)]
      cases hf2 : (updateOpportunity st oid u).2.opportunities.find?
          (fun d => d.opportunityId == oid) with
      | none => rfl
      | some opp2 =>
        refine congrArg MState.sowDetails (convertedSowTrigger_stay _ oid opp2 u (Or.inr ?_))
        rw [hfirst]
        exact List.find?_isSome.mpr ⟨mkAutoSow st oid opp, by simp, by simp [mkAutoSow]⟩
    rw [hsecond, hcount1]
  · intro st oid u opp hf hs hnp
    have he : u.isEmpty = false := by simp [SowUpdateDict.isEmpty, hs]
    have hfirst : (updateSowDetails st oid u).2.projects =
        st.projects ++ [mkAutoProject st oid opp u] := by
      rw [updateSowDetails_snd_projects, he, if_neg (by simp),
        signedProjectTrigger_insert st oid u opp hf hs hnp]
    have hcount1 : (updateSowDetails st oid u).2.projects.countP
        (fun p => p.linked_opportunity_id == oid) = 1 := by
      rw [hfirst, List.countP_append, hnp]
      simp [mkAutoProject]
    have hsecond : (updateSowDetails (updateSowDetails st oid u).2 oid u).2.projects =
        (updateSowDetails st oid u).2.projects := by
      rw [updateSowDetails_snd_projects, he, if_neg (by simp)]
      refine congrArg MState.projects (signedProjectTrigger_stay _ oid u (Or.inr (Or.inr ?_)))
      rw [hcount1]
      omega
    rw [hsecond, hcount1]

/-- C3 witness: on the sample state, each rule run twice leaves exactly
one auto-created record. -/
theorem claim_C3_witness :
    ((updateOpportunity (updateOpportunity st0 "OPP-001" convUpd).2 "OPP-001" convUpd).2.sowDetails.countP
      (fun s => s.opportunityId == "OPP-001")) = 1 ∧
    ((updateSowDetails (updateSowDetails st0 "OPP-001" signedUpd).2 "OPP-001" signedUpd).2.projects.countP
      (fun p => p.linked_opportunity_id == "OPP-001")) = 1 :=
  ⟨claim_C3_triggers_idempotent.1 st0 "OPP-001" convUpd opp1 (by decide) rfl rfl,
   claim_C3_triggers_idempotent.2 st0 "OPP-001" signedUpd opp1 (by decide) rfl rfl⟩

theorem atMostOnePerKey_append (key : α → String) (l : List α) (d : α)
    (hl : atMostOnePerKey key l) (hd : ∀ x ∈ l, key x ≠ key d) :
    atMostOnePerKey key (l ++ [d]) := by
  unfold atMostOnePerKey at *
  rw [List.map_append, List.pairwise_append]
  refine ⟨hl, List.pairwise_singleton _ _, ?_⟩
  intro a ha b hb
  rcases List.mem_map.mp ha with ⟨x, hx, rfl⟩
  simp only [List.map_cons, List.map_nil, List.mem_singleton] at hb
  rw [hb]
  exact hd x hx

theorem atMostOnePerKey_of_sublist (key : α → String) {l l' : List α}
    (h : l'.Sublist l) (hl : atMostOnePerKey key l) : atMostOnePerKey key l' :=
  List.Pairwise.sublist (h.map key) hl

theorem atMostOnePerKey_congr (key : α → String) {l l' : List α}
    (h : l'.map key = l.map key) (hl : atMostOnePerKey key l) : atMostOnePerKey key l' := by
  unfold atMostOnePerKey at *
  rw [h]
  exact hl

theorem convertedSowTrigger_sow_inv (st : MState) (oid : String) (opp : OppDoc)
    (u : OppUpdateDict)
    (h : atMostOnePerKey SowDetailsDoc.opportunityId st.sowDetails) :
    atMostOnePerKey SowDetailsDoc.opportunityId (convertedSowTrigger st oid opp u).sowDetails := by
  by_cases hc : (u.pipelineStatus == some "Converted to SOW") = true
  · by_cases hn : (st.sowDetails.find? (fun s => s.opportunityId == oid)) = none
    · rw [convertedSowTrigger_insert st oid opp u (by simpa using hc) hn]
      refine atMostOnePerKey_append _ _ _ h ?_
      intro x hx
      have := List.find?_eq_none.mp hn x hx
      simpa [mkAutoSow] using this
    · rw [convertedSowTrigger_stay st oid opp u
        (Or.inr (Option.isSome_iff_ne_none.mpr hn))]
      exact h
  · rw [convertedSowTrigger_stay st oid opp u (Or.inl (by simpa using hc))]
    exact h

theorem updateOpportunity_inv (st : MState) (oid : String) (u : OppUpdateDict)
    (h : Inv st) : Inv (updateOpportunity st oid u).2 := by
  constructor
  · rw [(updateOpportunity_snd_parts st oid u).1]
    exact h.1
  · rw [updateOpportunity_snd_sowDetails]
    split
    · exact h.2
    · split
      · exact h.2
      · exact convertedSowTrigger_sow_inv st oid _ u h.2

theorem updateSowDetails_snd_sowDetails_map (st : MState) (oid : String)
    (u : SowUpdateDict) :
    (updateSowDetails st oid u).2.sowDetails.map SowDetailsDoc.opportunityId =
      st.sowDetails.map SowDetailsDoc.opportunityId := by
  have hsame : (signedProjectTrigger st oid u).sowDetails = st.sowDetails :=
    (signedProjectTrigger_parts st oid u).2.2.2.1
  by_cases he : u.isEmpty = true
  · simp [updateSowDetails, he]
  · simp only [Bool.not_eq_true] at he
    simp only [updateSowDetails, he, Bool.false_eq_true, if_false]
    split
    · split
      all_goals
        rw [updateFirst_map_eq (fun d => d.opportunityId == oid) u.apply
          SowDetailsDoc.opportunityId (fun x => rfl), hsame]
    · rw [hsame]

theorem updateSowDetails_inv (st : MState) (oid : String) (u : SowUpdateDict)
    (h : Inv st) : Inv (updateSowDetails st oid u).2 := by
  constructor
  · rw [(updateSowDetails_snd_parts st oid u).2.1]
    exact h.1
  · exact atMostOnePerKey_congr _ (updateSowDetails_snd_sowDetails_map st oid u) h.2

theorem updateRfpDetails_inv (st : MState) (oid : String) (u : RfpUpdateDict)
    (h : Inv st) : Inv (updateRfpDetails st oid u).2 := by
  have hmap : (updateFirst (fun d => d.opportunityId == oid) u.apply
      st.rfpDetails).2.map RfpDetailsDoc.opportunityId =
      st.rfpDetails.map RfpDetailsDoc.opportunityId :=
    updateFirst_map_eq (fun d => d.opportunityId == oid) u.apply
      RfpDetailsDoc.opportunityId (fun x => rfl) st.rfpDetails
  simp only [updateRfpDetails]
  split
  · exact h
  · split
    · exact h
    · split
      · split
        · exact ⟨atMostOnePerKey_congr _ hmap h.1, h.2⟩
        · exact ⟨atMostOnePerKey_congr _ hmap h.1, h.2⟩
      · exact h

theorem deleteOpportunity_inv (st : MState) (oid : String) (h : Inv st) :
    Inv (deleteOpportunity st oid).2 := by
  simp only [deleteOpportunity]
  split
  · exact h
  · split
    · exact ⟨atMostOnePerKey_of_sublist _ (List.filter_sublist _) h.1,
        atMostOnePerKey_of_sublist _ (deleteOne_sublist _ _) h.2⟩
    · exact ⟨atMostOnePerKey_of_sublist _ (List.filter_sublist _) h.1, h.2⟩

theorem createRfpDetails_inv (st : MState) (oid : String) (r : RfpCreate)
    (h : Inv st) : Inv (createRfpDetails st oid r).2 := by
  unfold createRfpDetails
  split
  · exact h
  · split
    · exact h
    · rename_i hex
      simp only [Option.isSome_iff_ne_none, Bool.not_eq_true, ne_eq,
        Decidable.not_not] at hex
      refine ⟨atMostOnePerKey_append _ _ _ h.1 ?_, h.2⟩
      intro x hx
      have := List.find?_eq_none.mp hex x hx
      simpa using this

theorem createSowDetails_inv (st : MState) (oid : String) (s : SowCreate)
    (h : Inv st) : Inv (createSowDetails st oid s).2 := by
  unfold createSowDetails
  split
  · exact h
  · split
    · exact h
    · rename_i hex
      simp only [Option.isSome_iff_ne_none, Bool.not_eq_true, ne_eq,
        Decidable.not_not] at hex
      refine ⟨h.1, atMostOnePerKey_append _ _ _ h.2 ?_⟩
      intro x hx
      have := List.find?_eq_none.mp hex x hx
      simpa using this

theorem mstep_inv (st : MState) (op : MOp) (h : Inv st) : Inv (mstep st op) := by
  cases op with
  | updOpp oid u => exact updateOpportunity_inv st oid u h
  | delOpp oid => exact deleteOpportunity_inv st oid h
  | mkRfp oid r => exact createRfpDetails_inv st oid r h
  | updRfp oid u => exact updateRfpDetails_inv st oid u h
  | upRfpDoc oid f =>
    show Inv (uploadRfpDocument st oid f).2
    simp only [uploadRfpDocument]
    split
    · exact h
    · split
      · exact h
      · exact h
  | delRfpDoc oid d =>
    show Inv (deleteRfpDocument st oid d).2
    simp only [deleteRfpDocument]
    split
    · exact h
    · split
      · exact h
      · exact h
  | mkSow oid s => exact createSowDetails_inv st oid s h
  | updSow oid u => exact updateSowDetails_inv st oid u h
  | upSowDoc oid f =>
    show Inv (uploadSowDocument st oid f).2
    simp only [uploadSowDocument]
    split
    · exact h
    · split
      · exact h
      · exact h
  | delSowDoc oid d =>
    show Inv (deleteSowDocument st oid d).2
    simp only [deleteSowDocument]
    split
    · exact h
    · split
      · exact h
      · split
        · exact h
        · exact h

/-- C4: every operation of the module preserves the invariant that each
opportunity id has at most one RFPDetails and at most one SOWDetails
document; for an existing opportunity, `create_rfp_details` and
`create_sow_details` fail with 400 and leave the state unchanged when a
record for the opportunity already exists, and insert exactly one record
otherwise. -/
theorem claim_C4_at_most_one_invariant :
    (∀ (st : MState) (op : MOp), Inv st → Inv (mstep st op)) ∧
    (∀ (st : MState) (oid : String) (r : RfpCreate),
      (st.opportunities.find? (fun d => d.opportunityId == oid)).isSome →
      ((st.rfpDetails.find? (fun d => d.opportunityId == oid)).isSome →
        createRfpDetails st oid r =
          (.error ⟨400, "RFP details already exist for this opportunity"⟩, st)) ∧
      (st.rfpDetails.find? (fun d => d.opportunityId == oid) = none →
        ∃ doc, doc.opportunityId = oid ∧
          createRfpDetails st oid r =
            (.ok doc, { st with rfpDetails := st.rfpDetails ++ [doc],
                                nextOid := st.nextOid + 1 }))) ∧
    (∀ (st : MState) (oid : String) (s : SowCreate),
      (st.opportunities.find? (fun d => d.opportunityId == oid)).isSome →
      ((st.sowDetails.find? (fun d => d.opportunityId == oid)).isSome →
        createSowDetails st oid s =
          (.error ⟨400, "SOW details already exist for this opportunity"⟩, st)) ∧
      (st.sowDetails.find? (fun d => d.opportunityId == oid) = none →
        ∃ doc, doc.opportunityId = oid ∧
          createSowDetails st oid s =
            (.ok doc, { st with sowDetails := st.sowDetails ++ [doc],
                                nextOid := st.nextOid + 1 }))) := by
  refine ⟨mstep_inv, ?_, ?_⟩
  · intro st oid r hopp
    obtain ⟨o, ho'⟩ := Option.isSome_iff_exists.mp hopp
    have ho : (st.opportunities.find? (fun d => d.opportunityId == oid)).isNone = false := by
      rw [ho']; rfl
    constructor
    · intro hex
      simp [createRfpDetails, ho, hex]
    · intro hnone
      have hn : (st.rfpDetails.find? (fun d => d.opportunityId == oid)).isSome = false := by
        simp [hnone]
      refine ⟨⟨freshId st.nextOid, oid, r.rfpTitle, r.rfpStatus⟩, rfl, ?_⟩
      simp [createRfpDetails, ho, hn]
  · intro st oid s hopp
    obtain ⟨o, ho'⟩ := Option.isSome_iff_exists.mp hopp
    have ho : (st.opportunities.find? (fun d => d.opportunityId == oid)).isNone = false := by
      rw [ho']; rfl
    constructor
    · intro hex
      simp [createSowDetails, ho, hex]
    · intro hnone
      have hn : (st.sowDetails.find? (fun d => d.opportunityId == oid)).isSome = false := by
        simp [hnone]
      refine ⟨⟨freshId st.nextOid, oid, s.sowTitle, s.sowStatus, s.contractValue,
        s.currency, 0⟩, rfl, ?_⟩
      simp [createSowDetails, ho, hn]

/-- C4 witness: the invariant is preserved on the sample state by a
create-then-create sequence, and the second create fails with 400. -/
theorem claim_C4_witness :
    Inv (mstep st0 (MOp.mkSow "OPP-001" ⟨"T", "Draft", 5, "USD"⟩)) ∧
    ((st0.opportunities.find? (fun d => d.opportunityId == "OPP-001")).isSome →
      ((st0.rfpDetails.find? (fun d => d.opportunityId == "OPP-001")).isSome →
        createRfpDetails st0 "OPP-001" ⟨"T", "Draft"⟩ =
          (.error ⟨400, "RFP details already exist for this opportunity"⟩, st0)) ∧
      (st0.rfpDetails.find? (fun d => d.opportunityId == "OPP-001") = none →
        ∃ doc, doc.opportunityId = "OPP-001" ∧
          createRfpDetails st0 "OPP-001" ⟨"T", "Draft"⟩ =
            (.ok doc, { st0 with rfpDetails := st0.rfpDetails ++ [doc],
                                 nextOid := st0.nextOid + 1 }))) :=
  ⟨claim_C4_at_most_one_invariant.1 st0 _ (by decide),
   claim_C4_at_most_one_invariant.2.1 st0 "OPP-001" ⟨"T", "Draft"⟩⟩

/-- C5 counterexample: with 51 matching RFP documents, `get_opportunity`
returns only 50 of them (`to_list(50)` at router line 124), so the view
does not contain every matching RFPDocument: document `d50` matches but is
missing. -/
theorem claim_C5_counterexample :
    (st51.rfpDocuments.filter (fun d => d.opportunityId == "OPP-001")).length = 51 ∧
    rfpDoc51 50 ∈ st51.rfpDocuments ∧
    (rfpDoc51 50).opportunityId = "OPP-001" ∧
    (getOpportunity st51 "OPP-001").toOption.map
      (fun v => (v.rfpDocuments.length, decide (rfpDoc51 50 ∈ v.rfpDocuments))) =
      some (50, false) := by
  refine ⟨by decide, by decide, rfl, by decide⟩

/-- C5 (amended): for a stored opportunity the view holds the unique
matching RFPDetails / SOWDetails record (or none), the first 50 matching
RFP documents, and the first 50 SOW documents keyed by the SOW record's
`_id` string (empty when no SOW record exists); a missing opportunity
yields 404.  The collections-router `get_complete_opportunity` behaves
identically with a cap of 100 and `str(_id)` serialization of a null id. -/
theorem claim_C5_complete_view (st : MState) (oid : String)
    (hr : atMostOnePerKey RfpDetailsDoc.opportunityId st.rfpDetails)
    (hs : atMostOnePerKey SowDetailsDoc.opportunityId st.sowDetails) :
    (st.opportunities.find? (fun d => d.opportunityId == oid) = none →
      getOpportunity st oid = .error ⟨404, "Opportunity not found"⟩) ∧
    (∀ v, getOpportunity st oid = .ok v →
      v.opportunity ∈ st.opportunities ∧ v.opportunity.opportunityId = oid ∧
      (∀ r, v.rfpDetails = some r ↔ r ∈ st.rfpDetails ∧ r.opportunityId = oid) ∧
      v.rfpDocuments =
        (st.rfpDocuments.filter (fun d => d.opportunityId == oid)).take 50 ∧
      (∀ s, v.sowDetails = some s ↔ s ∈ st.sowDetails ∧ s.opportunityId = oid) ∧
      (v.sowDetails = none → v.sowDocuments = []) ∧
      (∀ s, v.sowDetails = some s →
        v.sowDocuments = (st.sowDocuments.filter (fun d => d.sowId == s.mid)).take 50)) := by
  constructor
  · intro hf
    simp [getOpportunity, hf]
  · intro v hv
    cases hf : st.opportunities.find? (fun d => d.opportunityId == oid) with
    | none => simp [getOpportunity, hf] at hv
    | some opp =>
      simp only [getOpportunity, hf, Except.ok.injEq] at hv
      subst hv
      refine ⟨List.mem_of_find?_eq_some hf, by simpa using List.find?_some hf,
        fun r => find?_key_eq_some_iff RfpDetailsDoc.opportunityId oid st.rfpDetails hr r,
        rfl,
        fun s => find?_key_eq_some_iff SowDetailsDoc.opportunityId oid st.sowDetails hs s,
        ?_, ?_⟩
      · intro hnone
        have hn : st.sowDetails.find? (fun d => d.opportunityId == oid) = none := hnone
        simp only [hn]
      · intro s hsome
        have hsm : st.sowDetails.find? (fun d => d.opportunityId == oid) = some s := hsome
        simp only [hsm]

/-- C5 witness: the 404 branch of the characterization at a concrete
state and id. -/
theorem claim_C5_witness :
    getOpportunity st0 "OPP-000" = .error ⟨404, "Opportunity not found"⟩ :=
  (claim_C5_complete_view st0 "OPP-000" (by decide) (by decide)).1 (by decide)

/-! ## C6 and C9: not-found behavior -/

/-- C6 counterexample: on a state with opportunity `OPP-001`, no SOW
details and no project, `update_sow_details` with status "Signed"
addresses a missing SOWDetails record and fails with 404, yet it has
inserted a Project record: the state is mutated by a not-found call. -/
theorem claim_C6_counterexample :
    (updateSowDetails st0 "OPP-001" signedUpd).1 =
      .error ⟨404, "SOW details not found"⟩ ∧
    (updateSowDetails st0 "OPP-001" signedUpd).2 ≠ st0 ∧
    (updateSowDetails st0 "OPP-001" signedUpd).2.projects.length = 1 := by
  refine ⟨rfl, by decide, by decide⟩

/-- C6 (amended): every modeled record-addressing endpoint fails with 404
and leaves the state unchanged when the addressed record is absent —
except `update_sow_details`, whose signed-status project insert runs
before the SOWDetails lookup, so its 404 leaves behind exactly the state
produced by that trigger (the state is unchanged whenever the update does
not carry status "Signed"). -/
theorem claim_C6_not_found_behavior :
    (∀ (st : MState) (oid : String),
      st.opportunities.find? (fun d => d.opportunityId == oid) = none →
      getOpportunity st oid = .error ⟨404, "Opportunity not found"⟩) ∧
    (∀ (st : MState) (oid : String) (u : OppUpdateDict), u.isEmpty = false →
      st.opportunities.find? (fun d => d.opportunityId == oid) = none →
      updateOpportunity st oid u = (.error ⟨404, "Opportunity not found"⟩, st)) ∧
    (∀ (st : MState) (oid : String),
      st.opportunities.any (fun d => d.opportunityId == oid) = false →
      deleteOpportunity st oid = (.error ⟨404, "Opportunity not found"⟩, st)) ∧
    (∀ (st : MState) (oid docId : String),
      (st.opportunities.find? (fun d => d.opportunityId == oid)).isSome →
      st.rfpDocuments.find? (fun d => d.mid == docId && d.opportunityId == oid) = none →
      deleteRfpDocument st oid docId = (.error ⟨404, "Document not found"⟩, st)) ∧
    (∀ (st : CState) (oid : String) (u : OppCUpdateDict),
      st.opportunities.find? (fun d => d.idField == some oid) = none →
      updateOpportunityC st none oid u = (.error ⟨404, "Opportunity not found"⟩, st)) ∧
    (∀ (st : MState) (oid : String) (u : SowUpdateDict), u.isEmpty = false →
      st.sowDetails.find? (fun s => s.opportunityId == oid) = none →
      (updateSowDetails st oid u).1 = .error ⟨404, "SOW details not found"⟩ ∧
      (updateSowDetails st oid u).2 = signedProjectTrigger st oid u ∧
      ((u.sowStatus == some "Signed") = false → (updateSowDetails st oid u).2 = st)) := by
  refine ⟨?_, ?_, ?_, ?_, ?_, ?_⟩
  · intro st oid h
    simp [getOpportunity, h]
  · intro st oid u he h
    exact updateOpportunity_not_found st oid u he h
  · intro st oid h
    simp [deleteOpportunity, deleteOne_fst_eq_any, h]
  · intro st oid docId ho hdoc
    obtain ⟨o, ho'⟩ := Option.isSome_iff_exists.mp ho
    have hn : (st.opportunities.find? (fun d => d.opportunityId == oid)).isNone = false := by
      rw [ho']; rfl
    simp [deleteRfpDocument, hn, hdoc]
  · intro st oid u h
    simp [updateOpportunityC, h]
  · intro st oid u he hns
    have heq := updateSowDetails_sow_not_found st oid u he hns
    refine ⟨by rw [heq], by rw [heq], ?_⟩
    intro hnotsig
    rw [heq]
    show signedProjectTrigger st oid u = st
    exact signedProjectTrigger_stay st oid u (Or.inl hnotsig)

/-- C6 witness: concrete 404-and-unchanged calls. -/
theorem claim_C6_witness :
    updateOpportunity st0 "OPP-999" convUpd = (.error ⟨404, "Opportunity not found"⟩, st0) ∧
    deleteOpportunity st0 "OPP-999" = (.error ⟨404, "Opportunity not found"⟩, st0) ∧
    getOpportunity st0 "OPP-999" = .error ⟨404, "Opportunity not found"⟩ :=
  ⟨claim_C6_not_found_behavior.2.1 st0 "OPP-999" convUpd (by decide) (by decide),
   claim_C6_not_found_behavior.2.2.1 st0 "OPP-999" (by decide),
   claim_C6_not_found_behavior.1 st0 "OPP-999" (by decide)⟩

/-- C9: for an existing opportunity, a "Signed" SOW update with no linked
project inserts the project before the SOWDetails lookup; when no
SOWDetails record exists, the call fails with 404 but the project insert
has taken effect, so the state is not unchanged on this not-found error. -/
theorem claim_C9_project_insert_survives_404 (st : MState) (oid : String)
    (u : SowUpdateDict) (opp : OppDoc)
    (ho : st.opportunities.find? (fun d => d.opportunityId == oid) = some opp)
    (hsig : u.sowStatus = some "Signed")
    (hnp : st.projects.countP (fun p => p.linked_opportunity_id == oid) = 0)
    (hns : st.sowDetails.find? (fun s => s.opportunityId == oid) = none) :
    (updateSowDetails st oid u).1 = .error ⟨404, "SOW details not found"⟩ ∧
    (updateSowDetails st oid u).2.projects = st.projects ++ [mkAutoProject st oid opp u] ∧
    (updateSowDetails st oid u).2 ≠ st := by
  have he : u.isEmpty = false := by simp [SowUpdateDict.isEmpty, hsig]
  have heq := updateSowDetails_sow_not_found st oid u he hns
  have htr := signedProjectTrigger_insert st oid u opp ho hsig hnp
  refine ⟨by rw [heq], ?_, ?_⟩
  · rw [heq]
    show (signedProjectTrigger st oid u).projects = _
    rw [htr]
  · rw [heq]
    show signedProjectTrigger st oid u ≠ st
    rw [htr]
    intro hcontra
    have hlen := congrArg (fun s => s.projects.length) hcontra
    simp at hlen

/-- C9 witness: the concrete signed update on the sample state. -/
theorem claim_C9_witness :
    (updateSowDetails st0 "OPP-001" signedUpd).1 =
      .error ⟨404, "SOW details not found"⟩ ∧
    (updateSowDetails st0 "OPP-001" signedUpd).2.projects =
      st0.projects ++ [mkAutoProject st0 "OPP-001" opp1 signedUpd] :=
  have h := claim_C9_project_insert_survives_404 st0 "OPP-001" signedUpd opp1
    (by decide) rfl rfl (by decide)
  ⟨h.1, h.2.1⟩

/-- C7: the claimed uniform exception wrapping is broken in
`get_opportunities`: its `status` query parameter shadows the fastapi
`status` module, so its except block raises `AttributeError` and the
client gets the framework's generic 500 whose detail is never derived
from the exception (for every exception text, the generic detail differs
from the handler's intended wrapped message).  The other modeled
endpoints do wrap database exceptions into a 500 whose detail prepends
their handler message, and the `HTTPException` 404s of
`update_opportunity` and `get_complete_opportunity` propagate with their
original status code rather than being wrapped. -/
theorem claim_C7_collections_error_surfacing :
    (∀ (st : CState) (msg : String) (sq pq : Option String) (skip limit : Nat),
      getOpportunitiesC st (some msg) sq pq skip limit =
        .error ⟨500, "Internal Server Error"⟩ ∧
      "Internal Server Error" ≠ "Failed to get opportunities: " ++ msg) ∧
    (∀ (st : CState) (msg : String) (o : OppCCreate),
      createOpportunityC st (some msg) o =
        (.error ⟨500, "Failed to create opportunity: " ++ msg⟩, st)) ∧
    (∀ (st : CState) (msg oid : String) (u : OppCUpdateDict),
      updateOpportunityC st (some msg) oid u =
        (.error ⟨500, "Failed to update opportunity: " ++ msg⟩, st)) ∧
    (∀ (st : CState) (msg oid : String),
      getCompleteOpportunityC st (some msg) oid =
        .error ⟨500, "Failed to get complete opportunity: " ++ msg⟩) ∧
    (∀ (st : CState) (oid : String) (u : OppCUpdateDict),
      st.opportunities.find? (fun d => d.idField == some oid) = none →
      updateOpportunityC st none oid u = (.error ⟨404, "Opportunity not found"⟩, st)) ∧
    (∀ (st : CState) (oid : String),
      st.opportunities.find? (fun d => d.opportunity_id == oid) = none →
      getCompleteOpportunityC st none oid = .error ⟨404, "Opportunity not found"⟩) := by
  refine ⟨?_, fun _ _ _ => rfl, fun _ _ _ _ => rfl, fun _ _ _ => rfl, ?_, ?_⟩
  · intro st msg sq pq skip limit
    refine ⟨rfl, ?_⟩
    intro h
    have hlen := congrArg String.length h
    rw [String.length_append] at hlen
    have h21 : "Internal Server Error".length = 21 := rfl
    have h29 : "Failed to get opportunities: ".length = 29 := rfl
    rw [h21, h29] at hlen
    omega
  · intro st oid u h
    simp [updateOpportunityC, h]
  · intro st oid h
    simp [getCompleteOpportunityC, h]

/-- C7 witness: a concrete injected fault loses its message in
`get_opportunities`, and a concrete missing id yields an unwrapped 404. -/
theorem claim_C7_witness :
    getOpportunitiesC cst0 (some "boom") none none 0 100 =
      .error ⟨500, "Internal Server Error"⟩ ∧
    getCompleteOpportunityC cst0 none "OPP-404" =
      .error ⟨404, "Opportunity not found"⟩ :=
  ⟨(claim_C7_collections_error_surfacing.1 cst0 "boom" none none 0 100).1,
   claim_C7_collections_error_surfacing.2.2.2.2.2 cst0 "OPP-404" (by decide)⟩

/-! ## C8: cascade delete -/

theorem deleteOne_key_none_left (key : α → String) (oid : String) :
    ∀ l : List α, atMostOnePerKey key l →
      ∀ x ∈ (deleteOne (fun a => key a == oid) l).2, key x ≠ oid := by
  intro l
  induction l with
  | nil => intro _ x hx; cases hx
  | cons a as ih =>
    intro h x hx
    rw [atMostOnePerKey, List.map_cons, List.pairwise_cons] at h
    by_cases pa : key a = oid
    · have hpa : (key a == oid) = true := beq_iff_eq.mpr pa
      simp only [deleteOne, hpa, if_true] at hx
      intro hkx
      exact h.1 (key x) (List.mem_map_of_mem key hx) (pa.trans hkx.symm)
    · have hpa : (key a == oid) = false := beq_eq_false_iff_ne.mpr pa
      simp only [deleteOne, hpa, Bool.false_eq_true, if_false] at hx
      rcases List.mem_cons.mp hx with rfl | hx'
      · exact pa
      · exact ih h.2 x hx'

theorem mem_deleteOne_of_not_p (p : α → Bool) :
    ∀ l : List α, ∀ x ∈ l, p x = false → x ∈ (deleteOne p l).2 := by
  intro l
  induction l with
  | nil => intro x hx; cases hx
  | cons a as ih =>
    intro x hx hpx
    by_cases pa : p a = true
    · simp only [deleteOne, pa, if_true]
      rcases List.mem_cons.mp hx with rfl | hx'
      · rw [pa] at hpx; cases hpx
      · exact hx'
    · simp only [Bool.not_eq_true] at pa
      simp only [deleteOne, pa, Bool.false_eq_true, if_false]
      rcases List.mem_cons.mp hx with rfl | hx'
      · exact List.mem_cons_self _ _
      · exact List.mem_cons_of_mem _ (ih x hx' hpx)

theorem deleteOpportunity_char (st : MState) (oid : String)
    (hex : st.opportunities.any (fun d => d.opportunityId == oid) = true) :
    (deleteOpportunity st oid).1 = .ok () ∧
    (deleteOpportunity st oid).2.opportunities =
      (deleteOne (fun d => d.opportunityId == oid) st.opportunities).2 ∧
    (deleteOpportunity st oid).2.rfpDetails =
      st.rfpDetails.filter (fun d => !(d.opportunityId == oid)) ∧
    (deleteOpportunity st oid).2.rfpDocuments =
      st.rfpDocuments.filter (fun d => !(d.opportunityId == oid)) ∧
    ((st.sowDetails.find? (fun s => s.opportunityId == oid) = none ∧
        (deleteOpportunity st oid).2.sowDetails = st.sowDetails ∧
        (deleteOpportunity st oid).2.sowDocuments = st.sowDocuments) ∨
      (∃ s, st.sowDetails.find? (fun s => s.opportunityId == oid) = some s ∧
        (deleteOpportunity st oid).2.sowDetails =
          (deleteOne (fun x => x.opportunityId == oid) st.sowDetails).2 ∧
        (deleteOpportunity st oid).2.sowDocuments =
          st.sowDocuments.filter (fun d => !(d.sowId == s.mid)))) := by
  have hr : (deleteOne (fun d => d.opportunityId == oid) st.opportunities).1 = true := by
    rw [deleteOne_fst_eq_any]; exact hex
  cases hsow : st.sowDetails.find? (fun s => s.opportunityId == oid) with
  | none =>
    have hres : deleteOpportunity st oid =
        (.ok (), { st with
          opportunities := (deleteOne (fun d => d.opportunityId == oid) st.opportunities).2,
          rfpDetails := st.rfpDetails.filter (fun d => !(d.opportunityId == oid)),
          rfpDocuments := st.rfpDocuments.filter (fun d => !(d.opportunityId == oid)) }) := by
      simp only [deleteOpportunity, hr, Bool.not_true, Bool.false_eq_true, if_false, hsow]
    rw [hres]
    exact ⟨rfl, rfl, rfl, rfl, Or.inl ⟨rfl, rfl, rfl⟩⟩
  | some s =>
    have hres : deleteOpportunity st oid =
        (.ok (), { st with
          opportunities := (deleteOne (fun d => d.opportunityId == oid) st.opportunities).2,
          rfpDetails := st.rfpDetails.filter (fun d => !(d.opportunityId == oid)),
          rfpDocuments := st.rfpDocuments.filter (fun d => !(d.opportunityId == oid)),
          sowDetails := (deleteOne (fun x => x.opportunityId == oid) st.sowDetails).2,
          sowDocuments := st.sowDocuments.filter (fun d => !(d.sowId == s.mid)) }) := by
      simp only [deleteOpportunity, hr, Bool.not_true, Bool.false_eq_true, if_false, hsow]
    rw [hres]
    exact ⟨rfl, rfl, rfl, rfl, Or.inr ⟨s, rfl, rfl, rfl⟩⟩

/-- C8: after a successful `delete_opportunity` on a state where
opportunity and SOWDetails ids are duplicate-free, no opportunity,
RFPDetails or RFPDocument with that opportunityId remains, no SOWDetails
with that opportunityId remains, and no SOWDocument referencing such a
SOWDetails record's id remains; records of other opportunities survive. -/
theorem claim_C8_delete_cascades (st : MState) (oid : String)
    (h1 : atMostOnePerKey OppDoc.opportunityId st.opportunities)
    (h2 : atMostOnePerKey SowDetailsDoc.opportunityId st.sowDetails)
    (hex : ∃ o ∈ st.opportunities, o.opportunityId = oid) :
    (deleteOpportunity st oid).1 = .ok () ∧
    (∀ o ∈ (deleteOpportunity st oid).2.opportunities, o.opportunityId ≠ oid) ∧
    (∀ r ∈ (deleteOpportunity st oid).2.rfpDetails, r.opportunityId ≠ oid) ∧
    (∀ d ∈ (deleteOpportunity st oid).2.rfpDocuments, d.opportunityId ≠ oid) ∧
    (∀ s ∈ (deleteOpportunity st oid).2.sowDetails, s.opportunityId ≠ oid) ∧
    (∀ s ∈ st.sowDetails, s.opportunityId = oid →
      ∀ d ∈ (deleteOpportunity st oid).2.sowDocuments, d.sowId ≠ s.mid) ∧
    (∀ o ∈ st.opportunities, o.opportunityId ≠ oid →
      o ∈ (deleteOpportunity st oid).2.opportunities) ∧
    (∀ r ∈ st.rfpDetails, r.opportunityId ≠ oid →
      r ∈ (deleteOpportunity st oid).2.rfpDetails) ∧
    (∀ d ∈ st.rfpDocuments, d.opportunityId ≠ oid →
      d ∈ (deleteOpportunity st oid).2.rfpDocuments) ∧
    (∀ s ∈ st.sowDetails, s.opportunityId ≠ oid →
      s ∈ (deleteOpportunity st oid).2.sowDetails) ∧
    (∀ d ∈ st.sowDocuments,
      (∀ s ∈ st.sowDetails, s.opportunityId = oid → d.sowId ≠ s.mid) →
      d ∈ (deleteOpportunity st oid).2.sowDocuments) := by
  have hany : st.opportunities.any (fun d => d.opportunityId == oid) = true := by
    rw [List.any_eq_true]
    obtain ⟨o, ho, hk⟩ := hex
    exact ⟨o, ho, by simp [hk]⟩
  obtain ⟨hok, hopps, hrfp, hrfpd, hsowcase⟩ := deleteOpportunity_char st oid hany
  refine ⟨hok, ?_, ?_, ?_, ?_, ?_, ?_, ?_, ?_, ?_, ?_⟩
  · rw [hopps]
    exact deleteOne_key_none_left OppDoc.opportunityId oid st.opportunities h1
  · rw [hrfp]
    intro r hrmem
    have := (List.mem_filter.mp hrmem).2
    simpa using this
  · rw [hrfpd]
    intro d hd
    have := (List.mem_filter.mp hd).2
    simpa using this
  · rcases hsowcase with ⟨hnone, hsd, _⟩ | ⟨s, hsome, hsd, _⟩
    · rw [hsd]
      intro x hx
      have := List.find?_eq_none.mp hnone x hx
      simpa using this
    · rw [hsd]
      exact deleteOne_key_none_left SowDetailsDoc.opportunityId oid st.sowDetails h2
  · rcases hsowcase with ⟨hnone, _, hsdoc⟩ | ⟨s, hsome, _, hsdoc⟩
    · intro x hx hkx
      have := List.find?_eq_none.mp hnone x hx
      simp [hkx] at this
    · intro x hx hkx
      have hxs : x = s :=
        ((find?_key_eq_some_iff SowDetailsDoc.opportunityId oid st.sowDetails h2 s).mp
          hsome) |> (fun hmem => by
            have := (find?_key_eq_some_iff SowDetailsDoc.opportunityId oid
              st.sowDetails h2 x).mpr ⟨hx, hkx⟩
            rw [hsome] at this
            exact (Option.some_injective _ this).symm)
      subst hxs
      rw [hsdoc]
      intro d hd
      have := (List.mem_filter.mp hd).2
      simpa using this
  · rw [hopps]
    intro o ho hk
    exact mem_deleteOne_of_not_p _ st.opportunities o ho (by simp [hk])
  · rw [hrfp]
    intro r hrmem hk
    exact List.mem_filter.mpr ⟨hrmem, by simp [hk]⟩
  · rw [hrfpd]
    intro d hd hk
    exact List.mem_filter.mpr ⟨hd, by simp [hk]⟩
  · rcases hsowcase with ⟨_, hsd, _⟩ | ⟨s, hsome, hsd, _⟩
    · rw [hsd]
      intro x hx _
      exact hx
    · rw [hsd]
      intro x hx hk
      exact mem_deleteOne_of_not_p _ st.sowDetails x hx (by simp [hk])
  · rcases hsowcase with ⟨_, _, hsdoc⟩ | ⟨s, hsome, _, hsdoc⟩
    · rw [hsdoc]
      intro d hd _
      exact hd
    · rw [hsdoc]
      intro d hd hcl
      have hsmem : s ∈ st.sowDetails ∧ s.opportunityId = oid :=
        (find?_key_eq_some_iff SowDetailsDoc.opportunityId oid st.sowDetails h2 s).mp hsome
      refine List.mem_filter.mpr ⟨hd, ?_⟩
      have := hcl s hsmem.1 hsmem.2
      simp [this]

/-- C8 witness: deleting `OPP-001` from the populated sample state
succeeds, removes its SOWDetails, and keeps `OPP-002`'s records. -/
theorem claim_C8_witness :
    (deleteOpportunity st8 "OPP-001").1 = .ok () ∧
    (∀ s ∈ (deleteOpportunity st8 "OPP-001").2.sowDetails, s.opportunityId ≠ "OPP-001") ∧
    (⟨"r2", "OPP-002", "T2", "Draft"⟩ : RfpDetailsDoc) ∈
      (deleteOpportunity st8 "OPP-001").2.rfpDetails :=
  have h := claim_C8_delete_cascades st8 "OPP-001" (by decide) (by decide)
    ⟨opp1, by decide, rfl⟩
  ⟨h.1, h.2.2.2.2.1, h.2.2.2.2.2.2.2.1 ⟨"r2", "OPP-002", "T2", "Draft"⟩ (by decide)
    (by decide)⟩

theorem oppIdOf_ne_empty (n : Nat) : oppIdOf n ≠ "" := by
  intro h
  have hd := congrArg String.data h
  rw [oppIdOf, String.data_append] at hd
  simp at hd

theorem genOppNum_spec (opps : List OppCDoc)
    (hids : ∀ d ∈ opps, ∃ n, n < 1000 ∧ d.opportunity_id = oppIdOf n) :
    (opps = [] ∧ genOppNum opps = .ok 1) ∨
    (∃ M, M < 1000 ∧ genOppNum opps = .ok (M + 1) ∧
      (∃ d ∈ opps, d.opportunity_id = oppIdOf M) ∧
      ∀ d ∈ opps, ∀ n, n < 1000 → d.opportunity_id = oppIdOf n → n ≤ M) := by
  rcases findOneSortDesc_spec (fun d => d.opportunity_id) opps with ⟨hnil, hfind⟩ | ⟨m, hfind, hmem, hmax⟩
  · left
    refine ⟨hnil, ?_⟩
    simp [genOppNum, hfind]
  · right
    obtain ⟨M, hM, hid⟩ := hids m hmem
    refine ⟨M, hM, ?_, ⟨m, hmem, hid⟩, ?_⟩
    · have hne : (m.opportunity_id == "") = false := by
        rw [hid]
        exact beq_eq_false_iff_ne.mpr (oppIdOf_ne_empty M)
      have hparse : parseOppNum m.opportunity_id = some M := by
        rw [hid]
        exact parseOppNum_oppIdOf M (Nat.lt_trans hM (by omega))
      simp [genOppNum, hfind, hne, hparse]
    · intro d hd n hn hdn
      by_contra hgt
      push_neg at hgt
      have hlt : strLtb (oppIdOf M) (oppIdOf n) = true := oppIdOf_strLtb_of_lt hn hgt
      have := hmax d hd
      rw [hid, hdn] at this
      rw [this] at hlt
      cases hlt

/-- C10 counterexample: starting from the empty state, the first create
without an id is assigned `OPP-001`, but the second one — a state whose
only existing id is of the `OPP-NNN` form — fails with a 500 duplicate-key
error and inserts nothing, because every document this endpoint inserts
carries a null `_id` (`model_dump(by_alias=True)` of the unset id field). -/
theorem claim_C10_counterexample :
    ((createOpportunityC cempty none creq).1.toOption.map
      (fun d => d.opportunity_id)) = some "OPP-001" ∧
    createOpportunityC (createOpportunityC cempty none creq).2 none creq =
      (.error ⟨500, "Failed to create opportunity: duplicate key"⟩,
        (createOpportunityC cempty none creq).2) := by
  exact ⟨rfl, rfl⟩

/-- C10 (amended): when no existing document has a null `_id` (so the
insert of the null-`_id` document succeeds) and every existing
opportunity_id has the `OPP-NNN` form, a create without an id appends one
document whose id is `OPP-` followed by the zero-padded successor of the
numeric suffix of the maximum existing id (`OPP-001` on an empty
collection), and that id differs from every existing id. -/
theorem claim_C10_generated_id (st : CState) (o : OppCCreate)
    (hids : ∀ d ∈ st.opportunities, ∃ n, n < 1000 ∧ d.opportunity_id = oppIdOf n)
    (hmid : ∀ d ∈ st.opportunities, d.mid ≠ none)
    (hno : o.opportunity_id = "") :
    ∃ doc, createOpportunityC st none o =
        (.ok doc, { st with opportunities := st.opportunities ++ [doc] }) ∧
      (∀ d ∈ st.opportunities, d.opportunity_id ≠ doc.opportunity_id) ∧
      (st.opportunities = [] → doc.opportunity_id = "OPP-001") ∧
      (∀ M, M < 1000 →
        (∃ d ∈ st.opportunities, d.opportunity_id = oppIdOf M) →
        (∀ d ∈ st.opportunities, ∀ n, n < 1000 → d.opportunity_id = oppIdOf n → n ≤ M) →
        doc.opportunity_id = oppIdOf (M + 1)) := by
  have hnob : (o.opportunity_id == "") = true := by simp [hno]
  have hdup : (st.opportunities.any (fun d => d.mid == (none : Option String))) = false := by
    rw [List.any_eq_false]
    intro d hd
    simpa using hmid d hd
  rcases genOppNum_spec st.opportunities hids with ⟨hnil, hgen⟩ | ⟨M, hM, hgen, hWit, hUb⟩
  · refine ⟨⟨none, none, "OPP-" ++ pad3 1, o.opportunity_name, o.client_name,
      o.currency, o.pipeline_status, o.status⟩, ?_, ?_, ?_, ?_⟩
    · simp [createOpportunityC, hnob, hgen, hdup]
    · intro d hd
      rw [hnil] at hd
      cases hd
    · intro
      rfl
    · intro M' _ hw _
      obtain ⟨d, hd, _⟩ := hw
      rw [hnil] at hd
      cases hd
  · refine ⟨⟨none, none, "OPP-" ++ pad3 (M + 1), o.opportunity_name, o.client_name,
      o.currency, o.pipeline_status, o.status⟩, ?_, ?_, ?_, ?_⟩
    · simp [createOpportunityC, hnob, hgen, hdup]
    · intro d hd heq
      obtain ⟨n, hn, hdn⟩ := hids d hd
      have hle : n ≤ M := hUb d hd n hn hdn
      rw [hdn] at heq
      have : n = M + 1 := oppIdOf_injOn (by omega) (by omega) heq
      omega
    · intro hnil
      obtain ⟨d, hd, _⟩ := hWit
      rw [hnil] at hd
      cases hd
    · intro M' hM' hw hub
      obtain ⟨d0, hd0, hd0id⟩ := hw
      obtain ⟨d1, hd1, hd1id⟩ := hWit
      have h1 : M ≤ M' := hub d1 hd1 M hM hd1id
      have h2 : M' ≤ M := hUb d0 hd0 M' hM' hd0id
      have : M' = M := by omega
      rw [this]
      rfl

/-- C10 witness: on the state with ids `OPP-001` and `OPP-003`, the create
without an id assigns `OPP-004` and appends exactly one document. -/
theorem claim_C10_witness :
    ∃ doc, createOpportunityC cst10 none creq =
        (.ok doc, { cst10 with opportunities := cst10.opportunities ++ [doc] }) ∧
      doc.opportunity_id = oppIdOf 4 := by
  have hids : ∀ d ∈ cst10.opportunities, ∃ n, n < 1000 ∧ d.opportunity_id = oppIdOf n := by
    intro d hd
    rcases List.mem_cons.mp hd with rfl | hd'
    · exact ⟨1, by omega, by decide⟩
    · rcases List.mem_cons.mp hd' with rfl | hd''
      · exact ⟨3, by omega, by decide⟩
      · cases hd''
  have hmid : ∀ d ∈ cst10.opportunities, d.mid ≠ none := by
    intro d hd
    rcases List.mem_cons.mp hd with rfl | hd'
    · decide
    · rcases List.mem_cons.mp hd' with rfl | hd''
      · decide
      · cases hd''
  have hub : ∀ d ∈ cst10.opportunities, ∀ n, n < 1000 →
      d.opportunity_id = oppIdOf n → n ≤ 3 := by
    intro d hd n hn heq
    have hp : parseOppNum d.opportunity_id = some n := by
      rw [heq]
      exact parseOppNum_oppIdOf n (by omega)
    rcases List.mem_cons.mp hd with rfl | hd'
    · have h1 : parseOppNum copp1x.opportunity_id = some 1 := by decide
      rw [hp] at h1
      injection h1 with h1
      omega
    · rcases List.mem_cons.mp hd' with rfl | hd''
      · have h3 : parseOppNum copp3.opportunity_id = some 3 := by decide
        rw [hp] at h3
        injection h3 with h3
        omega
      · cases hd''
  obtain ⟨doc, h1, _, _, h4⟩ := claim_C10_generated_id cst10 creq hids hmid rfl
  exact ⟨doc, h1, h4 3 (by omega) ⟨copp3, by decide, by decide⟩ hub⟩

end Crm

